import Mathlib

/-!
# Turn-based combat engine (`GameTurn-Based-Combat.cpp`)

A shallow embedding of the combat engine and proofs about it.

Modelling conventions
* A C++ `int` is a Lean `Int`, and the `int` arithmetic of the mutators of
  `Entity` (`SpendMana`, `TakeDamage`, `Heal`, `RestoreMana`) is 32-bit: each
  sum or difference goes through `wrapInt`, which reduces it modulo `2 ^ 32`
  into the `int` range.  Signed overflow is undefined behaviour in C++; the
  wrapped value is what two's-complement hardware computes.  Theorems about
  the value a mutator computes carry the bound `inInt` under which the
  operation does not overflow.
* `real /= 2` is `Int.tdiv` (C++ division truncates toward zero).
* Console narration (`cout`) is not part of the state and is left out.
* A `shared_ptr<IAction>` is an `Option IAction`; `none` is the empty pointer.
  Calling `->Execute` through an empty pointer has no defined result and is
  modelled by `none`.
* Methods that mutate `this` become functions returning the new entity; an
  action, which may touch both the actor and the target (two distinct objects),
  returns the pair `(actor, target)`.
* `cin >> choice` reads the next element of a sequence `choices : Nat → Int`,
  `rand()` the next element of `draws : Nat → Nat`; both are indexed by the
  number of loop iterations completed so far.
* The grid of `GameMap` is a list of rows; `grid[y][x]` outside a vector has no
  defined result and is modelled by `none`.  The `size_t` coordinates are
  natural numbers with `++` and `--` taken modulo `2 ^ 64`.
* Every battle started by `MovePlayer` gets its own `choices`, `draws` and
  iteration budget.
-/

namespace Combat

/-- The `int` that 32-bit two's-complement arithmetic gives for an operation
whose exact result is `x`: `x` reduced modulo `2 ^ 32` into the range from
`-2147483648` to `2147483647`. -/
def wrapInt (x : Int) : Int := (x + 2147483648) % 4294967296 - 2147483648

/-- The exact result `x` of an operation is a value of `int`: the operation
does not overflow. -/
def inInt (x : Int) : Prop := -2147483648 ≤ x ∧ x ≤ 2147483647

instance (x : Int) : Decidable (inInt x) := by
  unfold inInt
  infer_instance

/-- The three concrete classes implementing `IAction`. -/
inductive IAction where
  | Attack
  | Fireball
  | Block
  deriving DecidableEq, Repr

/-- Fields of `class Entity`. -/
structure Entity where
  name : String
  health : Int
  energy : Int
  mana : Int
  armor : Int
  isBlocking : Bool
  actions : List (Option IAction)
  deriving DecidableEq, Repr

namespace Entity

/-- Constructor `Entity(n, h, e, m, a)`: not blocking, no actions. -/
def mk5 (n : String) (h e m a : Int) : Entity :=
  { name := n, health := h, energy := e, mana := m, armor := a,
    isBlocking := false, actions := [] }

/-- `AddAction`: `actions.push_back(act)`. -/
def AddAction (self : Entity) (act : Option IAction) : Entity :=
  { self with actions := self.actions ++ [act] }

/-- `HasMana`: `mana >= amount`. -/
def HasMana (self : Entity) (amount : Int) : Bool :=
  decide (self.mana ≥ amount)

/-- `SpendMana`: subtract, then floor at 0. -/
def SpendMana (self : Entity) (amount : Int) : Entity :=
  let mana := wrapInt (self.mana - amount)
  let mana := if mana < 0 then 0 else mana
  { self with mana := mana }

/-- `TakeDamage`: armor reduction, halving when blocking, health floored at 0. -/
def TakeDamage (self : Entity) (dmg : Int) : Entity :=
  let real := wrapInt (dmg - self.armor)
  let real := if real < 0 then 0 else real
  let real := if self.isBlocking then Int.tdiv real 2 else real
  let isBlocking := if self.isBlocking then false else self.isBlocking
  let health := wrapInt (self.health - real)
  let health := if health < 0 then 0 else health
  { self with health := health, isBlocking := isBlocking }

/-- `IsAlive`: `health > 0`. -/
def IsAlive (self : Entity) : Bool :=
  decide (self.health > 0)

/-- `SetBlocking`. -/
def SetBlocking (self : Entity) (val : Bool) : Entity :=
  { self with isBlocking := val }

/-- `Heal`: add, then cap at 100. -/
def Heal (self : Entity) (amount : Int) : Entity :=
  let health := wrapInt (self.health + amount)
  let health := if health > 100 then 100 else health
  { self with health := health }

/-- `RestoreMana`: add, then cap at 40. -/
def RestoreMana (self : Entity) (amount : Int) : Entity :=
  let mana := wrapInt (self.mana + amount)
  let mana := if mana > 40 then 40 else mana
  { self with mana := mana }

end Entity

namespace IAction

/-- `Execute(actor, target)` of each concrete action; the result is the pair
(actor afterwards, target afterwards). -/
def Execute : IAction → Entity → Entity → Entity × Entity
  | Attack, actor, target => (actor, target.TakeDamage 15)
  | Fireball, actor, target =>
      let manaCost : Int := 10
      if !actor.HasMana manaCost then (actor, target)
      else (actor.SpendMana manaCost, target.TakeDamage 25)
  | Block, actor, target => (actor.SetBlocking true, target)

end IAction

/-- The call `ptr->Execute(actor, target)` through a `shared_ptr<IAction>`. -/
def executePtr (ptr : Option IAction) (actor target : Entity) : Option (Entity × Entity) :=
  match ptr with
  | some act => some (act.Execute actor target)
  | none => none

/-- `Entity::PerformAction(index, target)`; the result is the pair
(self afterwards, target afterwards). -/
def Entity.PerformAction (self : Entity) (index : Int) (target : Entity) :
    Option (Entity × Entity) :=
  if h : 0 ≤ index ∧ index.toNat < self.actions.length then
    executePtr (self.actions.get ⟨index.toNat, h.2⟩) self target
  else some (self, target)

/-- `ActionFactory::CreateAction`. -/
def CreateAction (actionName : String) : Option IAction :=
  if actionName = "Attack" then some IAction.Attack
  else if actionName = "Fireball" then some IAction.Fireball
  else if actionName = "Block" then some IAction.Block
  else none

/-- Constructor `Player(n)`. -/
def Player (n : String) : Entity :=
  (((Entity.mk5 n 100 50 40 5).AddAction (CreateAction "Attack")).AddAction
    (CreateAction "Fireball")).AddAction (CreateAction "Block")

/-- Constructor `Goblin(n)`. -/
def Goblin (n : String) : Entity :=
  ((Entity.mk5 n 80 40 0 7).AddAction (CreateAction "Attack")).AddAction
    (CreateAction "Block")

/-- The fixed data of a battle between a constructed `Player` and a constructed
`Goblin`: the armor values and the action lists set by the two constructors. -/
def battleReady (p g : Entity) : Prop :=
  p.armor = 5 ∧ g.armor = 7
    ∧ p.actions = [some IAction.Attack, some IAction.Fireball, some IAction.Block]
    ∧ g.actions = [some IAction.Attack, some IAction.Block]

instance (p g : Entity) : Decidable (battleReady p g) := by
  unfold battleReady
  infer_instance

/-- The pool ranges: health in `[0, 100]` and mana in `[0, 40]`. -/
def poolsInRange (e : Entity) : Prop :=
  0 ≤ e.health ∧ e.health ≤ 100 ∧ 0 ≤ e.mana ∧ e.mana ≤ 40

instance (e : Entity) : Decidable (poolsInRange e) := by
  unfold poolsInRange
  infer_instance

/-- How a run of `StepBattle` ends. -/
inductive BattleRun where
  /-- The function returned `win`, leaving the player and the goblin as given. -/
  | returned (win : Bool) (p g : Entity)
  /-- An empty action pointer was dereferenced. -/
  | nullAction
  /-- The loop was still running when the iteration budget ran out. -/
  | noFuel
  deriving DecidableEq, Repr

/-- The code after the `while` loop of `StepBattle`. -/
def battleResult (p g : Entity) : BattleRun :=
  if !p.IsAlive then BattleRun.returned false p g
  else BattleRun.returned true p g

/-- How one pass through the body of the `while` loop of `StepBattle` ends. -/
inductive BodyRun where
  /-- One of the two `break` statements was taken. -/
  | broke (p g : Entity)
  /-- The end of the body was reached; the loop condition is tested next. -/
  | continues (p g : Entity)
  /-- An empty action pointer was dereferenced. -/
  | nullAction
  deriving DecidableEq, Repr

/-- The body of the `while` loop of `StepBattle`: `choice` is the value read
from `cin`, `draw` the value returned by `rand()` (called only when the goblin
gets its turn). -/
def loopBody (choice : Int) (draw : Nat) (p g : Entity) : BodyRun :=
  match p.PerformAction (choice - 1) g with
  | none => BodyRun.nullAction
  | some (p, g) =>
    if !g.IsAlive then BodyRun.broke p g
    else
      let gobChoice : Int := (draw : Int) % 2
      match g.PerformAction gobChoice p with
      | none => BodyRun.nullAction
      | some (g, p) =>
        if !p.IsAlive then BodyRun.broke p g
        else BodyRun.continues p g

/-- The `while` loop of `StepBattle` followed by the code after it.  `fuel`
bounds the number of times the loop body is entered and `turn` counts the
iterations already completed (the position in `choices` and `draws`). -/
def battleLoop (choices : Nat → Int) (draws : Nat → Nat) :
    Nat → Nat → Entity → Entity → BattleRun
  | fuel, turn, p, g =>
    if p.IsAlive && g.IsAlive then
      match fuel with
      | 0 => BattleRun.noFuel
      | fuel + 1 =>
        match loopBody (choices turn) (draws turn) p g with
        | BodyRun.nullAction => BattleRun.nullAction
        | BodyRun.broke p g => battleResult p g
        | BodyRun.continues p g => battleLoop choices draws fuel (turn + 1) p g
    else battleResult p g

/-- `StepBattle(p, g)` run for at most `fuel` iterations of its loop. -/
def StepBattle (choices : Nat → Int) (draws : Nat → Nat) (fuel : Nat) (p g : Entity) :
    BattleRun :=
  battleLoop choices draws fuel 0 p g

/-! ## Concrete entities used as test inputs -/

/-- The hero built by `main`. -/
def hero : Entity := Player "Hero"

/-- The goblin built by `main`. -/
def goblin : Entity := Goblin "Goblin"

/-- A goblin that has just executed `Block`. -/
def defendingGoblin : Entity := goblin.SetBlocking true

/-- A defending goblin that is down to 3 health. -/
def woundedDefender : Entity := { defendingGoblin with health := 3 }

/-- A hero whose mana is down to 5. -/
def drainedHero : Entity := { hero with mana := 5 }

/-- The hero after ten exchanges of `Attack` with the goblin. -/
def heroAtTen : Entity := { hero with health := 10 }

/-- The goblin once its health has reached 0. -/
def goblinDefeated : Entity := { goblin with health := 0 }

/-- The goblin when one more unblocked `Attack` defeats it. -/
def goblinAtEight : Entity := { goblin with health := 8 }

/-- The index chosen for the goblin in `StepBattle`: `rand() % 2`, where `draw`
is the value returned by `rand()`. -/
def gobChoice (draw : Nat) : Int := (draw : Int) % 2

/-- The calls that change the player or the goblin anywhere in the program:
`p.PerformAction(index, &g)`, `g.PerformAction(index, &p)` (both made by
`StepBattle`), and the two pickups `p.Heal(20)` and `p.RestoreMana(20)` (made
by `GameMap::MovePlayer`). -/
inductive GameEvent where
  | playerActs (index : Int)
  | goblinActs (index : Int)
  | healPickup
  | manaPickup
  deriving DecidableEq, Repr

/-- The effect of one call on the pair (player, goblin); `none` when an empty
action pointer is dereferenced. -/
def applyEvent : GameEvent → Entity × Entity → Option (Entity × Entity)
  | GameEvent.playerActs index, (p, g) => p.PerformAction index g
  | GameEvent.goblinActs index, (p, g) =>
      match g.PerformAction index p with
      | some (g, p) => some (p, g)
      | none => none
  | GameEvent.healPickup, (p, g) => some (p.Heal 20, g)
  | GameEvent.manaPickup, (p, g) => some (p.RestoreMana 20, g)

/-- The effect of a finite sequence of calls, in order. -/
def runEvents : List GameEvent → Entity × Entity → Option (Entity × Entity)
  | [], s => some s
  | e :: es, s =>
      match applyEvent e s with
      | none => none
      | some s => runEvents es s

/-- The ranges of the pools of the player and the goblin in a running game. -/
def gameRanges (p g : Entity) : Prop :=
  (0 ≤ p.health ∧ p.health ≤ 100) ∧ (0 ≤ p.mana ∧ p.mana ≤ 40)
    ∧ (0 ≤ g.health ∧ g.health ≤ 80) ∧ g.mana = 0

instance (p g : Entity) : Decidable (gameRanges p g) := by
  unfold gameRanges
  infer_instance

/-! ## The map (`class GameMap`) -/

/-- The number of values of `size_t` (64 bits). -/
def sizeModulus : Nat := 18446744073709551616

/-- `n--` on a `size_t`. -/
def sizeDec (n : Nat) : Nat := (n + (sizeModulus - 1)) % sizeModulus

/-- `n++` on a `size_t`. -/
def sizeInc (n : Nat) : Nat := (n + 1) % sizeModulus

/-- The read `grid[y][x]`; `none` when an index is outside its vector. -/
def gridRead (grid : List (List Int)) (y x : Nat) : Option Int :=
  match grid[y]? with
  | some row => row[x]?
  | none => none

/-- The write `grid[y][x] = v`; `none` when an index is outside its vector. -/
def gridWrite (grid : List (List Int)) (y x : Nat) (v : Int) : Option (List (List Int)) :=
  match grid[y]? with
  | some row => if x < row.length then some (grid.set y (row.set x v)) else none
  | none => none

/-- Fields of `class GameMap`. -/
structure GameMap where
  grid : List (List Int)
  px : Nat
  py : Nat
  gx : Nat
  gy : Nat
  deriving DecidableEq, Repr

namespace GameMap

/-- `static const int W = 15`. -/
def W : Nat := 15

/-- `static const int H = 15`. -/
def H : Nat := 15

/-- The assignments `grid[y][x] = v` that follow the two wall loops in the
constructor, in source order, as triples `(y, x, v)`. -/
def cellWrites : List (Nat × Nat × Int) :=
  [(5, 5, 1), (10, 10, 2), (6, 4, 3), (13, 11, 2), (7, 10, 4), (3, 5, 5),
   (6, 4, 3), (8, 4, 4), (9, 2, 5), (4, 7, 3), (10, 3, 4), (9, 4, 5)]

/-- Constructor `GameMap()`: the zero grid, the two wall loops, the cell
assignments, and the final values of `px`, `py`, `gx`, `gy`; `none` if one of
the writes were out of bounds. -/
def new : Option GameMap := do
  let grid : List (List Int) := List.replicate H (List.replicate W 0)
  let grid ← (List.range W).foldlM (fun grid i => do
    let grid ← gridWrite grid 0 i 9
    gridWrite grid (H - 1) i 9) grid
  let grid ← (List.range H).foldlM (fun grid i => do
    let grid ← gridWrite grid i 0 9
    gridWrite grid i (W - 1) 9) grid
  let grid ← cellWrites.foldlM (fun grid c => gridWrite grid c.1 c.2.1 c.2.2) grid
  pure { grid := grid, px := 5, py := 5, gx := 11, gy := 13 }

end GameMap

/-- The map that `GameMap()` builds, written out. -/
def initialMap : GameMap :=
  { grid :=
      [[9, 9, 9, 9, 9, 9, 9, 9, 9, 9, 9, 9, 9, 9, 9],
       [9, 0, 0, 0, 0, 0, 0, 0, 0, 0, 0, 0, 0, 0, 9],
       [9, 0, 0, 0, 0, 0, 0, 0, 0, 0, 0, 0, 0, 0, 9],
       [9, 0, 0, 0, 0, 5, 0, 0, 0, 0, 0, 0, 0, 0, 9],
       [9, 0, 0, 0, 0, 0, 0, 3, 0, 0, 0, 0, 0, 0, 9],
       [9, 0, 0, 0, 0, 1, 0, 0, 0, 0, 0, 0, 0, 0, 9],
       [9, 0, 0, 0, 3, 0, 0, 0, 0, 0, 0, 0, 0, 0, 9],
       [9, 0, 0, 0, 0, 0, 0, 0, 0, 0, 4, 0, 0, 0, 9],
       [9, 0, 0, 0, 4, 0, 0, 0, 0, 0, 0, 0, 0, 0, 9],
       [9, 0, 5, 0, 5, 0, 0, 0, 0, 0, 0, 0, 0, 0, 9],
       [9, 0, 0, 4, 0, 0, 0, 0, 0, 0, 2, 0, 0, 0, 9],
       [9, 0, 0, 0, 0, 0, 0, 0, 0, 0, 0, 0, 0, 0, 9],
       [9, 0, 0, 0, 0, 0, 0, 0, 0, 0, 0, 0, 0, 0, 9],
       [9, 0, 0, 0, 0, 0, 0, 0, 0, 0, 0, 2, 0, 0, 9],
       [9, 9, 9, 9, 9, 9, 9, 9, 9, 9, 9, 9, 9, 9, 9]],
    px := 5, py := 5, gx := 11, gy := 13 }

/-- How a call of `GameMap::MovePlayer` ends. -/
inductive MoveRun where
  /-- The function returned `ok`, leaving the map and the entities as given. -/
  | returned (ok : Bool) (m : GameMap) (p g : Entity)
  /-- The grid was indexed outside its bounds. -/
  | outOfBounds
  /-- The battle dereferenced an empty action pointer. -/
  | nullAction
  /-- The battle was still running when its iteration budget ran out. -/
  | noFuel
  deriving DecidableEq, Repr

/-- The first lines of `MovePlayer`: the target `(nx, ny)` of a command, or
`none` for an unknown command. -/
def moveTarget (m : GameMap) (cmd : Char) : Option (Nat × Nat) :=
  let nx := m.px
  let ny := m.py
  if cmd = 'w' then some (nx, sizeDec ny)
  else if cmd = 's' then some (nx, sizeInc ny)
  else if cmd = 'a' then some (sizeDec nx, ny)
  else if cmd = 'd' then some (sizeInc nx, ny)
  else none

/-- The last lines of `MovePlayer`, after the wall and goblin tests: the
pickups on the tile `grid[ny][nx]`, then the move of the player mark. -/
def finishMove (m : GameMap) (nx ny : Nat) (tile : Int) (p g : Entity) : MoveRun :=
  let p := if tile = 3 then p.Heal 20 else p
  let p := if tile = 4 then p.RestoreMana 20 else p
  match gridWrite m.grid m.py m.px 0 with
  | none => MoveRun.outOfBounds
  | some grid =>
    match gridWrite grid ny nx 1 with
    | none => MoveRun.outOfBounds
    | some grid => MoveRun.returned true { m with grid := grid, px := nx, py := ny } p g

/-- `GameMap::MovePlayer(cmd, p, g)`.  The battle it may start reads its own
`choices` and `draws` and runs for at most `fuel` iterations. -/
def MovePlayer (choices : Nat → Int) (draws : Nat → Nat) (fuel : Nat)
    (m : GameMap) (cmd : Char) (p g : Entity) : MoveRun :=
  match moveTarget m cmd with
  | none => MoveRun.returned true m p g
  | some (nx, ny) =>
    match gridRead m.grid ny nx with
    | none => MoveRun.outOfBounds
    | some tile =>
      if tile = 9 then MoveRun.returned true m p g
      else if tile = 2 then
        match StepBattle choices draws fuel p g with
        | BattleRun.nullAction => MoveRun.nullAction
        | BattleRun.noFuel => MoveRun.noFuel
        | BattleRun.returned false p g => MoveRun.returned false m p g
        | BattleRun.returned true p g => finishMove m nx ny tile p g
      else finishMove m nx ny tile p g

/-- One round of the loop of `main`: the command read, and the input of the
battle that the move may start. -/
structure MoveInput where
  cmd : Char
  choices : Nat → Int
  draws : Nat → Nat
  fuel : Nat

/-- The loop of `main` over a finite list of commands: it stops at the first
call of `MovePlayer` that does not return true. -/
def runMoves : List MoveInput → GameMap → Entity → Entity → MoveRun
  | [], m, p, g => MoveRun.returned true m p g
  | i :: rest, m, p, g =>
    match MovePlayer i.choices i.draws i.fuel m i.cmd p g with
    | MoveRun.returned true m p g => runMoves rest m p g
    | r => r

/-- The position invariant of the map: every cell of the 15 by 15 grid can be
read, the border cells hold 9, and the player is strictly inside the border. -/
def mapInvariant (m : GameMap) : Prop :=
  (∀ y : Nat, y < 15 → ∀ x : Nat, x < 15 → gridRead m.grid y x ≠ none)
    ∧ (∀ i : Nat, i < 15 →
        gridRead m.grid 0 i = some 9 ∧ gridRead m.grid 14 i = some 9
          ∧ gridRead m.grid i 0 = some 9 ∧ gridRead m.grid i 14 = some 9)
    ∧ (1 ≤ m.px ∧ m.px ≤ 13) ∧ (1 ≤ m.py ∧ m.py ≤ 13)

instance (m : GameMap) : Decidable (mapInvariant m) := by
  unfold mapInvariant
  infer_instance

/-- Two rounds of `main`: a step up, then a step to the left; no battle
starts. -/
def twoSteps : List MoveInput :=
  [{ cmd := 'w', choices := fun _ => 1, draws := fun _ => 0, fuel := 0 },
   { cmd := 'a', choices := fun _ => 1, draws := fun _ => 0, fuel := 0 }]

/-- A map late in a game: the first goblin tile `(10, 10)` and the mana tile
`(10, 7)` have been walked over and the hero stands on `(11, 12)`, just above
the second goblin tile `(11, 13)`. -/
def mapAboveSecondGoblin : GameMap :=
  { grid :=
      [[9, 9, 9, 9, 9, 9, 9, 9, 9, 9, 9, 9, 9, 9, 9],
       [9, 0, 0, 0, 0, 0, 0, 0, 0, 0, 0, 0, 0, 0, 9],
       [9, 0, 0, 0, 0, 0, 0, 0, 0, 0, 0, 0, 0, 0, 9],
       [9, 0, 0, 0, 0, 5, 0, 0, 0, 0, 0, 0, 0, 0, 9],
       [9, 0, 0, 0, 0, 0, 0, 3, 0, 0, 0, 0, 0, 0, 9],
       [9, 0, 0, 0, 0, 0, 0, 0, 0, 0, 0, 0, 0, 0, 9],
       [9, 0, 0, 0, 3, 0, 0, 0, 0, 0, 0, 0, 0, 0, 9],
       [9, 0, 0, 0, 0, 0, 0, 0, 0, 0, 0, 0, 0, 0, 9],
       [9, 0, 0, 0, 4, 0, 0, 0, 0, 0, 0, 0, 0, 0, 9],
       [9, 0, 5, 0, 5, 0, 0, 0, 0, 0, 0, 0, 0, 0, 9],
       [9, 0, 0, 4, 0, 0, 0, 0, 0, 0, 0, 0, 0, 0, 9],
       [9, 0, 0, 0, 0, 0, 0, 0, 0, 0, 0, 0, 0, 0, 9],
       [9, 0, 0, 0, 0, 0, 0, 0, 0, 0, 0, 1, 0, 0, 9],
       [9, 0, 0, 0, 0, 0, 0, 0, 0, 0, 0, 2, 0, 0, 9],
       [9, 9, 9, 9, 9, 9, 9, 9, 9, 9, 9, 9, 9, 9, 9]],
    px := 11, py := 12, gx := 11, gy := 13 }

/-- The map after one more step down: the hero stands on the second goblin
tile `(11, 13)`. -/
def mapOnSecondGoblin : GameMap :=
  { grid :=
      [[9, 9, 9, 9, 9, 9, 9, 9, 9, 9, 9, 9, 9, 9, 9],
       [9, 0, 0, 0, 0, 0, 0, 0, 0, 0, 0, 0, 0, 0, 9],
       [9, 0, 0, 0, 0, 0, 0, 0, 0, 0, 0, 0, 0, 0, 9],
       [9, 0, 0, 0, 0, 5, 0, 0, 0, 0, 0, 0, 0, 0, 9],
       [9, 0, 0, 0, 0, 0, 0, 3, 0, 0, 0, 0, 0, 0, 9],
       [9, 0, 0, 0, 0, 0, 0, 0, 0, 0, 0, 0, 0, 0, 9],
       [9, 0, 0, 0, 3, 0, 0, 0, 0, 0, 0, 0, 0, 0, 9],
       [9, 0, 0, 0, 0, 0, 0, 0, 0, 0, 0, 0, 0, 0, 9],
       [9, 0, 0, 0, 4, 0, 0, 0, 0, 0, 0, 0, 0, 0, 9],
       [9, 0, 5, 0, 5, 0, 0, 0, 0, 0, 0, 0, 0, 0, 9],
       [9, 0, 0, 4, 0, 0, 0, 0, 0, 0, 0, 0, 0, 0, 9],
       [9, 0, 0, 0, 0, 0, 0, 0, 0, 0, 0, 0, 0, 0, 9],
       [9, 0, 0, 0, 0, 0, 0, 0, 0, 0, 0, 0, 0, 0, 9],
       [9, 0, 0, 0, 0, 0, 0, 0, 0, 0, 0, 1, 0, 0, 9],
       [9, 9, 9, 9, 9, 9, 9, 9, 9, 9, 9, 9, 9, 9, 9]],
    px := 11, py := 13, gx := 11, gy := 13 }

/-! ## Helper lemmas -/

theorem tdiv_two_nonneg (x : Int) (hx : 0 ≤ x) : 0 ≤ Int.tdiv x 2 := by
  rw [Int.tdiv_eq_ediv hx (by decide)]
  omega

theorem tdiv_two_eq_ediv (x : Int) (hx : 0 ≤ x) : Int.tdiv x 2 = x / 2 :=
  Int.tdiv_eq_ediv hx (by decide)

/-- Without overflow `wrapInt` changes nothing. -/
theorem wrapInt_eq (x : Int) (h : inInt x) : wrapInt x = x := by
  unfold inInt at h
  unfold wrapInt
  omega

/-- The result of `wrapInt` is a value of `int`. -/
theorem wrapInt_inInt (x : Int) : inInt (wrapInt x) := by
  unfold inInt wrapInt
  omega

/-- The health left by `TakeDamage`, for every entity and every argument. -/
theorem TakeDamage_health_wrap (self : Entity) (d : Int) :
    (self.TakeDamage d).health
      = max 0 (wrapInt (self.health -
          (if self.isBlocking then Int.tdiv (max 0 (wrapInt (d - self.armor))) 2
           else max 0 (wrapInt (d - self.armor))))) := by
  have hmax : (if wrapInt (d - self.armor) < 0 then 0 else wrapInt (d - self.armor))
      = max 0 (wrapInt (d - self.armor)) := by
    split <;> omega
  simp only [Entity.TakeDamage, hmax]
  split <;> omega

/-- The health left by `TakeDamage` in closed form, when neither the
subtraction of the armor nor the subtraction from the health overflows. -/
theorem TakeDamage_health_eq (self : Entity) (d : Int)
    (h1 : inInt (d - self.armor))
    (h2 : inInt (self.health -
      (if self.isBlocking then Int.tdiv (max 0 (d - self.armor)) 2
       else max 0 (d - self.armor)))) :
    (self.TakeDamage d).health
      = max 0 (self.health -
          (if self.isBlocking then Int.tdiv (max 0 (d - self.armor)) 2
           else max 0 (d - self.armor))) := by
  rw [TakeDamage_health_wrap, wrapInt_eq _ h1, wrapInt_eq _ h2]

/-- The damage that `TakeDamage` subtracts is never negative. -/
theorem TakeDamage_real_nonneg (self : Entity) (d : Int) :
    0 ≤ (if self.isBlocking then Int.tdiv (max 0 (d - self.armor)) 2
         else max 0 (d - self.armor)) := by
  split
  · exact tdiv_two_nonneg _ (le_max_left _ _)
  · exact le_max_left _ _

/-- The wrapped damage that `TakeDamage` subtracts lies between 0 and
2147483647. -/
theorem TakeDamage_real_wrap_bounds (b : Bool) (x : Int) :
    0 ≤ (if b then Int.tdiv (max 0 (wrapInt x)) 2 else max 0 (wrapInt x))
      ∧ (if b then Int.tdiv (max 0 (wrapInt x)) 2 else max 0 (wrapInt x)) ≤ 2147483647 := by
  have hw := wrapInt_inInt x
  unfold inInt at hw
  cases b
  · simp only [Bool.false_eq_true, if_false]
    omega
  · simp only [if_true]
    rw [tdiv_two_eq_ediv _ (le_max_left _ _)]
    omega

/-- `TakeDamage` leaves the defending flag false. -/
theorem TakeDamage_clears_flag (self : Entity) (d : Int) :
    (self.TakeDamage d).isBlocking = false := by
  cases hb : self.isBlocking <;> simp [Entity.TakeDamage, hb]

/-! ## C1: `TakeDamage` -/

/-- C1 (counterexample): on the fresh hero (health 100, armor 5, not
defending) `TakeDamage (-2147483648)` overflows in `dmg - armor`: the wrapped
difference is 2147483643 and health ends at 0, where `max 0 (h - e)` with
`e = max 0 (d - armor) = 0` is 100. -/
theorem TakeDamage_health_and_flag_counterexample :
    hero.health = 100 ∧ hero.armor = 5 ∧ hero.isBlocking = false
      ∧ wrapInt (-2147483648 - hero.armor) = 2147483643
      ∧ (hero.TakeDamage (-2147483648)).health = 0
      ∧ max 0 (hero.health - max 0 (-2147483648 - hero.armor)) = 100
      ∧ (hero.TakeDamage (-2147483648)).health
          ≠ max 0 (hero.health -
              (if hero.isBlocking then Int.tdiv (max 0 (-2147483648 - hero.armor)) 2
               else max 0 (-2147483648 - hero.armor))) := by
  decide

/-- C1 (amended): for every entity and every damage amount `d` such that
neither `d - armor` nor `h - e` overflows, `TakeDamage d` leaves health at
`max 0 (h - e)`, where `e` is `max 0 (d - armor)` when the entity is not
defending and that value divided by two (truncating) when it is; `e` is never
negative, and the defending flag is false afterwards in both cases. -/
theorem TakeDamage_health_and_flag (self : Entity) (d : Int)
    (h1 : inInt (d - self.armor))
    (h2 : inInt (self.health -
      (if self.isBlocking then Int.tdiv (max 0 (d - self.armor)) 2
       else max 0 (d - self.armor)))) :
    (self.TakeDamage d).health
        = max 0 (self.health -
            (if self.isBlocking then Int.tdiv (max 0 (d - self.armor)) 2
             else max 0 (d - self.armor)))
      ∧ 0 ≤ (if self.isBlocking then Int.tdiv (max 0 (d - self.armor)) 2
             else max 0 (d - self.armor))
      ∧ (self.TakeDamage d).isBlocking = false := by
  refine ⟨?_, TakeDamage_real_nonneg self d, ?_⟩
  · rw [TakeDamage_health_wrap, wrapInt_eq _ h1, wrapInt_eq _ h2]
  · unfold Entity.TakeDamage
    by_cases hb : self.isBlocking = true
    · simp only [hb, if_true]
    · rw [Bool.not_eq_true] at hb
      simp only [hb, Bool.false_eq_true, if_false]

/-- C1 (witness): the fresh goblin (health 80, armor 7) taking 25 damage ends
at 62 health, the defending goblin at 71, both with the flag false. -/
theorem TakeDamage_health_and_flag_witness :
    ((goblin.TakeDamage 25).health = 62 ∧ (goblin.TakeDamage 25).isBlocking = false)
      ∧ ((defendingGoblin.TakeDamage 25).health = 71
        ∧ (defendingGoblin.TakeDamage 25).isBlocking = false) :=
  ⟨⟨(TakeDamage_health_and_flag goblin 25 (by decide) (by decide)).1.trans (by decide),
     (TakeDamage_health_and_flag goblin 25 (by decide) (by decide)).2.2⟩,
   ⟨(TakeDamage_health_and_flag defendingGoblin 25 (by decide) (by decide)).1.trans
      (by decide),
     (TakeDamage_health_and_flag defendingGoblin 25 (by decide) (by decide)).2.2⟩⟩

/-! ## C2: `Fireball::Execute` -/

/-- C2: `Fireball::Execute` on an actor and a distinct target changes nothing
when the actor has less than 10 mana; with at least 10 mana (the mana being a
value of `int`, at most 2147483647) the actor loses exactly 10 mana (nothing
else of the actor changes) and the target becomes `TakeDamage 25` of itself.
Whatever the mana, with at least 10 the execution is `SpendMana 10` on the
actor and `TakeDamage 25` on the target. -/
theorem Fireball_Execute_spec (actor target : Entity) :
    (actor.mana < 10 → IAction.Fireball.Execute actor target = (actor, target))
      ∧ (10 ≤ actor.mana → actor.mana ≤ 2147483647 →
          IAction.Fireball.Execute actor target
            = ({ actor with mana := actor.mana - 10 }, target.TakeDamage 25))
      ∧ (10 ≤ actor.mana →
          IAction.Fireball.Execute actor target
            = (actor.SpendMana 10, target.TakeDamage 25)) := by
  refine ⟨?_, ?_, ?_⟩
  · intro h
    have hm : ¬ (10 ≤ actor.mana) := by omega
    simp [IAction.Execute, Entity.HasMana, hm]
  · intro h hint
    have hw : wrapInt (actor.mana - 10) = actor.mana - 10 :=
      wrapInt_eq _ ⟨by omega, by omega⟩
    have hm : ¬ (actor.mana - 10 < 0) := by omega
    simp [IAction.Execute, Entity.HasMana, Entity.SpendMana, h, hw, hm]
  · intro h
    simp [IAction.Execute, Entity.HasMana, h]

/-- C2 (witness): a hero with 5 mana casting the fireball at the goblin keeps
5 mana and the goblin keeps its 80 health; the fresh hero (40 mana) ends with
30 mana and the goblin with 80 - (25 - 7) = 62 health. -/
theorem Fireball_Execute_spec_witness :
    (IAction.Fireball.Execute drainedHero goblin = (drainedHero, goblin)
        ∧ (IAction.Fireball.Execute drainedHero goblin).1.mana = 5
        ∧ (IAction.Fireball.Execute drainedHero goblin).2.health = 80)
      ∧ (IAction.Fireball.Execute hero goblin
            = ({ hero with mana := hero.mana - 10 }, goblin.TakeDamage 25)
        ∧ (IAction.Fireball.Execute hero goblin).1.mana = 30
        ∧ (IAction.Fireball.Execute hero goblin).2.health = 62) :=
  ⟨⟨(Fireball_Execute_spec drainedHero goblin).1 (by decide), by decide, by decide⟩,
   ⟨(Fireball_Execute_spec hero goblin).2.1 (by decide) (by decide), by decide, by decide⟩⟩

/-! ## C3: damage against a defending entity -/

/-- C3 (counterexample): a defending entity with armor 7 and only 3 health
left that receives 15 raw damage loses 3 health, not `(15 - 7) / 2 = 4`. -/
theorem TakeDamage_blocking_reduction_counterexample :
    woundedDefender.isBlocking = true
      ∧ woundedDefender.armor = 7
      ∧ woundedDefender.health - (woundedDefender.TakeDamage 15).health = 3
      ∧ max 0 (15 - woundedDefender.armor) / 2 = 4
      ∧ woundedDefender.health - (woundedDefender.TakeDamage 15).health
          ≠ max 0 (15 - woundedDefender.armor) / 2 := by
  decide

/-- C3 (amended): for a defending entity and a damage amount `d` such that
neither `d - armor` nor `h - e` overflows, `TakeDamage d` leaves health at
`max 0 (h - e)` with `e = max 0 (d - armor) / 2` (floor), so the health
reduction is exactly `e` when `e ≤ h` and is the whole of `h` when
`0 ≤ h < e`; the defending flag is false afterwards. -/
theorem TakeDamage_blocking_reduction (self : Entity) (d : Int)
    (hb : self.isBlocking = true)
    (h1 : inInt (d - self.armor))
    (h2 : inInt (self.health - max 0 (d - self.armor) / 2)) :
    (self.TakeDamage d).health = max 0 (self.health - max 0 (d - self.armor) / 2)
      ∧ (max 0 (d - self.armor) / 2 ≤ self.health →
          self.health - (self.TakeDamage d).health = max 0 (d - self.armor) / 2)
      ∧ (0 ≤ self.health → self.health < max 0 (d - self.armor) / 2 →
          self.health - (self.TakeDamage d).health = self.health)
      ∧ (self.TakeDamage d).isBlocking = false := by
  have he : (if self.isBlocking then Int.tdiv (max 0 (d - self.armor)) 2
      else max 0 (d - self.armor)) = max 0 (d - self.armor) / 2 := by
    rw [if_pos hb, tdiv_two_eq_ediv _ (le_max_left _ _)]
  have h3 := TakeDamage_health_eq self d h1 (by rw [he]; exact h2)
  rw [he] at h3
  refine ⟨h3, ?_, ?_, TakeDamage_clears_flag self d⟩
  · intro hle
    rw [h3]
    omega
  · intro h0 hlt
    rw [h3]
    omega

/-- C3 (witness): the defending goblin (armor 7, health 80) receiving 15 raw
damage loses exactly 4 health and is no longer defending. -/
theorem TakeDamage_blocking_reduction_witness :
    defendingGoblin.isBlocking = true
      ∧ defendingGoblin.health - (defendingGoblin.TakeDamage 15).health = 4
      ∧ (defendingGoblin.TakeDamage 15).isBlocking = false :=
  ⟨by decide,
   ((TakeDamage_blocking_reduction defendingGoblin 15 (by decide) (by decide)
      (by decide)).2.1 (by decide)).trans (by decide),
   (TakeDamage_blocking_reduction defendingGoblin 15 (by decide) (by decide)
      (by decide)).2.2.2⟩

/-! ## C4: `Entity::PerformAction` -/

/-- C4: `PerformAction index target` with `0 ≤ index < len(actions)` is the
call of `Execute` through `actions[index]`, the entry at that position in
insertion order (`AddAction` appends); with any other index neither the entity
nor the target changes. -/
theorem PerformAction_spec (self target : Entity) (index : Int) :
    (0 ≤ index → index < (self.actions.length : Int) →
        ∃ ptr, self.actions.get? index.toNat = some ptr
          ∧ self.PerformAction index target = executePtr ptr self target
          ∧ ∀ act, ptr = some act →
              self.PerformAction index target = some (act.Execute self target))
      ∧ (index < 0 ∨ (self.actions.length : Int) ≤ index →
          self.PerformAction index target = some (self, target))
      ∧ (∀ act, (self.AddAction act).actions = self.actions ++ [act]
          ∧ (self.AddAction act).actions.get? self.actions.length = some act) := by
  refine ⟨?_, ?_, ?_⟩
  · intro h0 hlt
    have hlen : index.toNat < self.actions.length := by omega
    refine ⟨self.actions.get ⟨index.toNat, hlen⟩, ?_, ?_, ?_⟩
    · exact List.get?_eq_get hlen
    · simp [Entity.PerformAction, h0, hlen]
    · intro act hact
      simp only [Entity.PerformAction, h0, hlen, and_self, dite_true, hact, executePtr]
  · intro h
    have hn : ¬ (0 ≤ index ∧ index.toNat < self.actions.length) := by omega
    simp [Entity.PerformAction, hn]
  · intro act
    simp [Entity.AddAction]

/-- C4 (witness): the hero's index 0 is `Attack`, index 2 is `Block`, and
indices 3 and -1 change nothing. -/
theorem PerformAction_spec_witness :
    hero.PerformAction 0 goblin = some (IAction.Attack.Execute hero goblin)
      ∧ hero.PerformAction 2 goblin = some (IAction.Block.Execute hero goblin)
      ∧ hero.PerformAction 3 goblin = some (hero, goblin)
      ∧ hero.PerformAction (-1) goblin = some (hero, goblin) :=
  ⟨by
    obtain ⟨ptr, hget, _, hex⟩ := (PerformAction_spec hero goblin 0).1 (by decide) (by decide)
    have hp : ptr = some IAction.Attack := by
      have : hero.actions.get? (0 : Int).toNat = some (some IAction.Attack) := by decide
      rw [this] at hget
      exact (Option.some.inj hget).symm
    exact hex _ hp,
   by decide,
   (PerformAction_spec hero goblin 3).2.1 (Or.inr (by decide)),
   (PerformAction_spec hero goblin (-1)).2.1 (Or.inl (by decide))⟩

/-! ## C5: `StepBattle` never ends in a draw -/

theorem TakeDamage_health_nonneg (self : Entity) (d : Int) :
    0 ≤ (self.TakeDamage d).health := by
  rw [TakeDamage_health_wrap self d]
  exact le_max_left _ _

theorem Execute_actor_health (act : IAction) (actor target : Entity) :
    (act.Execute actor target).1.health = actor.health := by
  cases act
  · rfl
  · simp only [IAction.Execute]
    split <;> rfl
  · rfl

theorem PerformAction_actor_health (self target : Entity) (index : Int)
    (a b : Entity) (h : self.PerformAction index target = some (a, b)) :
    a.health = self.health := by
  unfold Entity.PerformAction at h
  split at h
  · unfold executePtr at h
    split at h
    · rename_i act _
      have h2 := Execute_actor_health act self target
      simp only [Option.some.injEq] at h
      rw [h] at h2
      exact h2
    · exact absurd h (by simp)
  · simp only [Option.some.injEq, Prod.mk.injEq] at h
    rw [← h.1]

/-- One pass through the loop body entered with the player alive: after a
`break` exactly one side is alive (the goblin is dead after the first `break`,
the player after the second), and at the end of the body both are alive. -/
theorem loopBody_alive (choice : Int) (draw : Nat) (p g : Entity)
    (hp : p.IsAlive = true) :
    (∀ p2 g2, loopBody choice draw p g = BodyRun.broke p2 g2 →
        p2.IsAlive ≠ g2.IsAlive)
      ∧ (∀ p2 g2, loopBody choice draw p g = BodyRun.continues p2 g2 →
        p2.IsAlive = true ∧ g2.IsAlive = true) := by
  cases h1 : p.PerformAction (choice - 1) g with
  | none => simp [loopBody, h1]
  | some r1 =>
    obtain ⟨p1, g1⟩ := r1
    have hp1 : p1.IsAlive = true := by
      have := PerformAction_actor_health p g _ p1 g1 h1
      simp only [Entity.IsAlive, this]
      exact hp
    cases hg1 : g1.IsAlive with
    | false => simp [loopBody, h1, hg1, hp1]
    | true =>
      cases h2 : g1.PerformAction ((draw : Int) % 2) p1 with
      | none => simp [loopBody, h1, hg1, h2]
      | some r2 =>
        obtain ⟨g2, p2⟩ := r2
        have hg2 : g2.IsAlive = true := by
          have := PerformAction_actor_health g1 p1 _ g2 p2 h2
          simp only [Entity.IsAlive, this]
          exact hg1
        cases hp2 : p2.IsAlive with
        | false => simp [loopBody, h1, hg1, h2, hp2, hg2]
        | true =>
          simp only [loopBody, h1, hg1, h2, hp2, Bool.not_true, Bool.false_eq_true, if_false]
          constructor
          · intro p3 g3 h
            exact absurd h (by simp)
          · intro p3 g3 h
            simp only [BodyRun.continues.injEq] at h
            rw [← h.1, ← h.2]
            exact ⟨hp2, hg2⟩

theorem battleResult_one_alive (p g : Entity) (h : p.IsAlive ≠ g.IsAlive)
    (w : Bool) (p2 g2 : Entity) (hr : battleResult p g = BattleRun.returned w p2 g2) :
    p2.IsAlive ≠ g2.IsAlive ∧ (w = true ↔ g2.IsAlive = false) := by
  unfold battleResult at hr
  cases hp : p.IsAlive <;> cases hg : g.IsAlive <;> simp [hp, hg] at h hr <;>
    obtain ⟨rfl, rfl, rfl⟩ := hr <;> simp [hp, hg]

theorem battleLoop_one_alive (choices : Nat → Int) (draws : Nat → Nat) (fuel : Nat) :
    ∀ (turn : Nat) (p g : Entity), p.IsAlive = true → g.IsAlive = true →
      ∀ (w : Bool) (p2 g2 : Entity),
        battleLoop choices draws fuel turn p g = BattleRun.returned w p2 g2 →
        p2.IsAlive ≠ g2.IsAlive ∧ (w = true ↔ g2.IsAlive = false) := by
  induction fuel with
  | zero =>
    intro turn p g hp hg w p2 g2 h
    simp [battleLoop, hp, hg] at h
  | succ n ih =>
    intro turn p g hp hg w p2 g2 h
    obtain ⟨hb, hc⟩ := loopBody_alive (choices turn) (draws turn) p g hp
    rw [battleLoop] at h
    simp only [hp, hg, Bool.and_self, if_true] at h
    cases hbody : loopBody (choices turn) (draws turn) p g with
    | nullAction => simp [hbody] at h
    | broke p1 g1 =>
      simp only [hbody] at h
      exact battleResult_one_alive p1 g1 (hb p1 g1 hbody) w p2 g2 h
    | continues p1 g1 =>
      simp only [hbody] at h
      obtain ⟨hp1, hg1⟩ := hc p1 g1 hbody
      exact ih (turn + 1) p1 g1 hp1 hg1 w p2 g2 h

/-- C5: a run of `StepBattle` that starts with both the player and the goblin
alive and returns leaves exactly one of them alive, and it returns true exactly
when the goblin is the one that is not alive. -/
theorem StepBattle_no_draw (choices : Nat → Int) (draws : Nat → Nat) (fuel : Nat)
    (p g : Entity) (w : Bool) (p2 g2 : Entity)
    (hp : p.IsAlive = true) (hg : g.IsAlive = true)
    (h : StepBattle choices draws fuel p g = BattleRun.returned w p2 g2) :
    p2.IsAlive ≠ g2.IsAlive ∧ (w = true ↔ g2.IsAlive = false) :=
  battleLoop_one_alive choices draws fuel 0 p g hp hg w p2 g2 h

/-- C5 (witness): when both sides attack on every turn the battle between the
fresh hero and goblin returns true with the hero at 10 health and the goblin
at 0. -/
theorem StepBattle_no_draw_witness :
    StepBattle (fun _ => 1) (fun _ => 0) 10 hero goblin
        = BattleRun.returned true heroAtTen goblinDefeated
      ∧ heroAtTen.IsAlive ≠ goblinDefeated.IsAlive
      ∧ ((true = true) ↔ goblinDefeated.IsAlive = false) :=
  ⟨by decide,
   StepBattle_no_draw (fun _ => 1) (fun _ => 0) 10 hero goblin true heroAtTen goblinDefeated
     (by decide) (by decide) (by decide)⟩

/-! ## C6: termination of `StepBattle` -/

theorem TakeDamage_frame (self : Entity) (d : Int) :
    (self.TakeDamage d).name = self.name ∧ (self.TakeDamage d).energy = self.energy
      ∧ (self.TakeDamage d).mana = self.mana ∧ (self.TakeDamage d).armor = self.armor
      ∧ (self.TakeDamage d).actions = self.actions :=
  ⟨rfl, rfl, rfl, rfl, rfl⟩

theorem TakeDamage_health_le (self : Entity) (d : Int) (h : 0 ≤ self.health) :
    (self.TakeDamage d).health ≤ self.health := by
  obtain ⟨h2, h3⟩ := TakeDamage_real_wrap_bounds self.isBlocking (d - self.armor)
  rw [TakeDamage_health_wrap self d]
  generalize (if self.isBlocking then Int.tdiv (max 0 (wrapInt (d - self.armor))) 2
    else max 0 (wrapInt (d - self.armor))) = e at h2 h3 ⊢
  unfold wrapInt
  omega

theorem TakeDamage_health_lt (self : Entity) (d : Int) (h : 0 < self.health)
    (hd : self.armor + 2 ≤ d) (hov : d - self.armor ≤ 2147483647) :
    (self.TakeDamage d).health < self.health := by
  rw [TakeDamage_health_wrap self d, wrapInt_eq (d - self.armor) ⟨by omega, hov⟩]
  have hm : max 0 (d - self.armor) = d - self.armor := max_eq_right (by omega)
  rw [hm]
  split
  · rw [tdiv_two_eq_ediv _ (by omega)]
    unfold wrapInt
    omega
  · unfold wrapInt
    omega

/-- What an action leaves alone: the armor and action list of both entities
and the health of the actor; the health of a target that is not below 0 can
only go down, and not below 0. -/
theorem Execute_frame (act : IAction) (actor target : Entity) :
    (act.Execute actor target).1.armor = actor.armor
      ∧ (act.Execute actor target).1.actions = actor.actions
      ∧ (act.Execute actor target).2.armor = target.armor
      ∧ (act.Execute actor target).2.actions = target.actions
      ∧ (0 ≤ target.health →
          0 ≤ (act.Execute actor target).2.health
            ∧ (act.Execute actor target).2.health ≤ target.health) := by
  cases act
  · exact ⟨rfl, rfl, rfl, rfl, fun h =>
      ⟨TakeDamage_health_nonneg target 15, TakeDamage_health_le target 15 h⟩⟩
  · simp only [IAction.Execute]
    split
    · exact ⟨rfl, rfl, rfl, rfl, fun h => ⟨h, le_refl _⟩⟩
    · exact ⟨rfl, rfl, rfl, rfl, fun h =>
        ⟨TakeDamage_health_nonneg target 25, TakeDamage_health_le target 25 h⟩⟩
  · exact ⟨rfl, rfl, rfl, rfl, fun h => ⟨h, le_refl _⟩⟩

theorem PerformAction_frame (self target : Entity) (index : Int) (a b : Entity)
    (h : self.PerformAction index target = some (a, b)) :
    a.armor = self.armor ∧ a.actions = self.actions
      ∧ b.armor = target.armor ∧ b.actions = target.actions
      ∧ (0 ≤ target.health → 0 ≤ b.health ∧ b.health ≤ target.health) := by
  unfold Entity.PerformAction at h
  split at h
  · unfold executePtr at h
    split at h
    · rename_i act _
      have h2 := Execute_frame act self target
      simp only [Option.some.injEq] at h
      rw [h] at h2
      exact h2
    · exact absurd h (by simp)
  · simp only [Option.some.injEq, Prod.mk.injEq] at h
    rw [← h.1, ← h.2]
    exact ⟨rfl, rfl, rfl, rfl, fun h0 => ⟨h0, le_refl _⟩⟩

/-- `PerformAction` written with the partial lookup `get?`. -/
theorem PerformAction_eq_get? (self target : Entity) (index : Int) :
    self.PerformAction index target
      = if 0 ≤ index then
          match self.actions.get? index.toNat with
          | some ptr => executePtr ptr self target
          | none => some (self, target)
        else some (self, target) := by
  unfold Entity.PerformAction
  by_cases h0 : 0 ≤ index
  · by_cases hlt : index.toNat < self.actions.length
    · simp [h0, hlt, List.getElem?_eq_getElem]
    · have hn : self.actions.length ≤ index.toNat := by omega
      simp [h0, hlt, List.getElem?_eq_none hn]
  · simp [h0]

/-- With no empty pointer in the action list `PerformAction` has a result. -/
theorem PerformAction_isSome (self target : Entity) (index : Int)
    (h : ∀ ptr ∈ self.actions, ptr ≠ none) :
    ∃ a b, self.PerformAction index target = some (a, b) := by
  rw [PerformAction_eq_get?]
  split
  · split
    · rename_i ptr hget
      have hmem : ptr ∈ self.actions := List.get?_mem hget
      cases ptr with
      | none => exact absurd rfl (h none hmem)
      | some act => exact ⟨_, _, rfl⟩
    · exact ⟨_, _, rfl⟩
  · exact ⟨_, _, rfl⟩

/-- Index 0 of an entity whose first action is `Attack`. -/
theorem PerformAction_zero_attack (self target : Entity) (rest : List (Option IAction))
    (h : self.actions = some IAction.Attack :: rest) :
    self.PerformAction 0 target = some (self, target.TakeDamage 15) := by
  rw [PerformAction_eq_get?, h]
  rfl

theorem battleReady_no_null (p g : Entity) (hr : battleReady p g) :
    (∀ ptr ∈ p.actions, ptr ≠ none) ∧ (∀ ptr ∈ g.actions, ptr ≠ none) := by
  obtain ⟨_, _, hpa, hga⟩ := hr
  rw [hpa, hga]
  constructor
  · intro ptr hmem
    simp only [List.mem_cons, List.mem_singleton, List.not_mem_nil, or_false] at hmem
    rcases hmem with h | h | h <;> simp [h]
  · intro ptr hmem
    simp only [List.mem_cons, List.mem_singleton, List.not_mem_nil, or_false] at hmem
    rcases hmem with h | h <;> simp [h]

/-- One pass through the loop body of a battle between a constructed player
and goblin, both alive: no empty pointer is met, and if the end of the body is
reached the armor and actions are as before, the total health has not grown,
and it has shrunk when the player chose `Attack` or the goblin drew `Attack`. -/
theorem loopBody_ready (choice : Int) (draw : Nat) (p g : Entity)
    (hr : battleReady p g) (hp : 0 < p.health) (hg : 0 < g.health) :
    loopBody choice draw p g ≠ BodyRun.nullAction
      ∧ ∀ p2 g2, loopBody choice draw p g = BodyRun.continues p2 g2 →
          battleReady p2 g2
            ∧ p2.health + g2.health ≤ p.health + g.health
            ∧ (choice = 1 ∨ draw % 2 = 0 → p2.health + g2.health < p.health + g.health) := by
  obtain ⟨hnp, hng⟩ := battleReady_no_null p g hr
  obtain ⟨hpar, hgar, hpa, hga⟩ := hr
  obtain ⟨p1, g1, h1⟩ := PerformAction_isSome p g (choice - 1) hnp
  obtain ⟨f1, f2, f3, f4, f5⟩ := PerformAction_frame p g _ p1 g1 h1
  have f6 := PerformAction_actor_health p g _ p1 g1 h1
  obtain ⟨f7, f8⟩ := f5 (le_of_lt hg)
  have hstrict1 : choice = 1 → g1.health < g.health := by
    intro hc
    have h0 := PerformAction_zero_attack p g _ hpa
    rw [hc] at h1
    rw [show (1 : Int) - 1 = 0 from rfl, h0] at h1
    simp only [Option.some.injEq, Prod.mk.injEq] at h1
    rw [← h1.2]
    exact TakeDamage_health_lt g 15 hg (by omega) (by omega)
  cases hg1 : g1.IsAlive with
  | false => simp [loopBody, h1, hg1]
  | true =>
    have hg1pos : 0 < g1.health := by simpa [Entity.IsAlive] using hg1
    have hng1 : ∀ ptr ∈ g1.actions, ptr ≠ none := by
      rw [f4]
      exact hng
    obtain ⟨g2, p2, h2⟩ := PerformAction_isSome g1 p1 ((draw : Int) % 2) hng1
    obtain ⟨e1, e2, e3, e4, e5⟩ := PerformAction_frame g1 p1 _ g2 p2 h2
    have e6 := PerformAction_actor_health g1 p1 _ g2 p2 h2
    obtain ⟨e7, e8⟩ := e5 (by omega)
    have hstrict2 : draw % 2 = 0 → p2.health < p1.health := by
      intro hd
      have h0 := PerformAction_zero_attack g1 p1 _ (f4.trans hga)
      have hd2 : (draw : Int) % 2 = 0 := by omega
      rw [hd2, h0] at h2
      simp only [Option.some.injEq, Prod.mk.injEq] at h2
      rw [← h2.2]
      exact TakeDamage_health_lt p1 15 (by omega) (by omega) (by omega)
    cases hp2 : p2.IsAlive with
    | false => simp [loopBody, h1, hg1, h2, hp2]
    | true =>
      simp only [loopBody, h1, hg1, h2, hp2, Bool.not_true, Bool.false_eq_true, if_false]
      refine ⟨by simp, ?_⟩
      intro p3 g3 h
      simp only [BodyRun.continues.injEq] at h
      rw [← h.1, ← h.2]
      refine ⟨⟨by omega, by omega, e4.trans (f2.trans hpa), e2.trans (f4.trans hga)⟩,
        by omega, ?_⟩
      intro hc
      rcases hc with hc | hc
      · have := hstrict1 hc
        omega
      · have := hstrict2 hc
        omega

theorem battleResult_returned (p g : Entity) :
    ∃ w, battleResult p g = BattleRun.returned w p g := by
  unfold battleResult
  split
  · exact ⟨false, rfl⟩
  · exact ⟨true, rfl⟩

/-- From a state of total health at most `N`, if every state of smaller total
health leads to a return and a damaging choice occurs `k` turns ahead, the loop
returns. -/
theorem battleLoop_reaches (choices : Nat → Int) (draws : Nat → Nat) (N : Nat)
    (ih : ∀ (turn : Nat) (p g : Entity), battleReady p g →
      p.health + g.health < (N : Int) →
      ∃ fuel w p2 g2, battleLoop choices draws fuel turn p g = BattleRun.returned w p2 g2)
    (k : Nat) :
    ∀ (turn : Nat) (p g : Entity), battleReady p g →
      p.health + g.health ≤ (N : Int) →
      (choices (turn + k) = 1 ∨ draws (turn + k) % 2 = 0) →
      ∃ fuel w p2 g2, battleLoop choices draws fuel turn p g = BattleRun.returned w p2 g2 := by
  induction k with
  | zero =>
    intro turn p g hr hN hk
    by_cases hal : (p.IsAlive && g.IsAlive) = true
    · have hp : 0 < p.health := by
        simp only [Bool.and_eq_true, Entity.IsAlive, decide_eq_true_eq] at hal
        exact hal.1
      have hg : 0 < g.health := by
        simp only [Bool.and_eq_true, Entity.IsAlive, decide_eq_true_eq] at hal
        exact hal.2
      obtain ⟨hnn, hc⟩ := loopBody_ready (choices turn) (draws turn) p g hr hp hg
      cases hbody : loopBody (choices turn) (draws turn) p g with
      | nullAction => exact absurd hbody hnn
      | broke p1 g1 =>
        obtain ⟨w, hw⟩ := battleResult_returned p1 g1
        refine ⟨1, w, p1, g1, ?_⟩
        rw [battleLoop]
        simp only [hal, if_true, hbody]
        exact hw
      | continues p1 g1 =>
        obtain ⟨hr1, _, hlt⟩ := hc p1 g1 hbody
        obtain ⟨fuel, w, p2, g2, hrun⟩ := ih (turn + 1) p1 g1 hr1 (by
          have := hlt hk
          omega)
        refine ⟨fuel + 1, w, p2, g2, ?_⟩
        rw [battleLoop]
        simp only [hal, if_true, hbody]
        exact hrun
    · obtain ⟨w, hw⟩ := battleResult_returned p g
      refine ⟨0, w, p, g, ?_⟩
      rw [battleLoop]
      simp only [hal, Bool.false_eq_true, if_false]
      exact hw
  | succ k ihk =>
    intro turn p g hr hN hk
    by_cases hal : (p.IsAlive && g.IsAlive) = true
    · have hp : 0 < p.health := by
        simp only [Bool.and_eq_true, Entity.IsAlive, decide_eq_true_eq] at hal
        exact hal.1
      have hg : 0 < g.health := by
        simp only [Bool.and_eq_true, Entity.IsAlive, decide_eq_true_eq] at hal
        exact hal.2
      obtain ⟨hnn, hc⟩ := loopBody_ready (choices turn) (draws turn) p g hr hp hg
      cases hbody : loopBody (choices turn) (draws turn) p g with
      | nullAction => exact absurd hbody hnn
      | broke p1 g1 =>
        obtain ⟨w, hw⟩ := battleResult_returned p1 g1
        refine ⟨1, w, p1, g1, ?_⟩
        rw [battleLoop]
        simp only [hal, if_true, hbody]
        exact hw
      | continues p1 g1 =>
        obtain ⟨hr1, hle, _⟩ := hc p1 g1 hbody
        have hk2 : choices (turn + 1 + k) = 1 ∨ draws (turn + 1 + k) % 2 = 0 := by
          rw [show turn + 1 + k = turn + (k + 1) by omega]
          exact hk
        obtain ⟨fuel, w, p2, g2, hrun⟩ := ihk (turn + 1) p1 g1 hr1 (by omega) hk2
        refine ⟨fuel + 1, w, p2, g2, ?_⟩
        rw [battleLoop]
        simp only [hal, if_true, hbody]
        exact hrun
    · obtain ⟨w, hw⟩ := battleResult_returned p g
      refine ⟨0, w, p, g, ?_⟩
      rw [battleLoop]
      simp only [hal, Bool.false_eq_true, if_false]
      exact hw

theorem battleLoop_terminates (choices : Nat → Int) (draws : Nat → Nat)
    (hinf : ∀ n, ∃ m, n ≤ m ∧ (choices m = 1 ∨ draws m % 2 = 0)) (N : Nat) :
    ∀ (turn : Nat) (p g : Entity), battleReady p g →
      p.health + g.health ≤ (N : Int) →
      ∃ fuel w p2 g2, battleLoop choices draws fuel turn p g = BattleRun.returned w p2 g2 := by
  induction N using Nat.strong_induction_on with
  | _ N ih =>
    intro turn p g hr hN
    obtain ⟨m, hm, hdmg⟩ := hinf turn
    have hk : choices (turn + (m - turn)) = 1 ∨ draws (turn + (m - turn)) % 2 = 0 := by
      rw [show turn + (m - turn) = m by omega]
      exact hdmg
    refine battleLoop_reaches choices draws N ?_ (m - turn) turn p g hr hN hk
    intro turn2 p2 g2 hr2 hlt
    by_cases hal : (p2.IsAlive && g2.IsAlive) = true
    · simp only [Bool.and_eq_true, Entity.IsAlive, decide_eq_true_eq] at hal
      exact ih (p2.health + g2.health).toNat (by omega) turn2 p2 g2 hr2 (by omega)
    · obtain ⟨w, hw⟩ := battleResult_returned p2 g2
      refine ⟨0, w, p2, g2, ?_⟩
      rw [battleLoop]
      simp only [hal, Bool.false_eq_true, if_false]
      exact hw

theorem battleReady_constructed (pn gn : String) : battleReady (Player pn) (Goblin gn) := by
  simp [battleReady, Player, Goblin, Entity.AddAction, Entity.mk5, CreateAction]

/-- When the player chooses `Block` (menu choice 3) and the goblin draws
`Block` (odd draw), the body runs to its end and only sets the two flags. -/
theorem loopBody_block_block (p g : Entity) (hr : battleReady p g)
    (hp : 0 < p.health) (hg : 0 < g.health) :
    loopBody 3 1 p g = BodyRun.continues (p.SetBlocking true) (g.SetBlocking true) := by
  obtain ⟨_, _, hpa, hga⟩ := hr
  have h1 : p.PerformAction (3 - 1) g = some (p.SetBlocking true, g) := by
    rw [PerformAction_eq_get?, hpa]
    rfl
  have h2 : g.PerformAction (((1 : Nat) : Int) % 2) (p.SetBlocking true)
      = some (g.SetBlocking true, p.SetBlocking true) := by
    rw [PerformAction_eq_get?, hga]
    rfl
  have hg1 : g.IsAlive = true := by simpa [Entity.IsAlive] using hg
  have hp1 : (p.SetBlocking true).IsAlive = true := by
    simpa [Entity.IsAlive, Entity.SetBlocking] using hp
  simp only [loopBody, h1, hg1, h2, hp1, Bool.not_true, Bool.false_eq_true, if_false]

theorem battleLoop_block_forever (fuel : Nat) :
    ∀ (turn : Nat) (p g : Entity), battleReady p g → 0 < p.health → 0 < g.health →
      battleLoop (fun _ => 3) (fun _ => 1) fuel turn p g = BattleRun.noFuel := by
  induction fuel with
  | zero =>
    intro turn p g _ hp hg
    simp [battleLoop, Entity.IsAlive, hp, hg]
  | succ n ih =>
    intro turn p g hr hp hg
    rw [battleLoop]
    simp only [Entity.IsAlive, hp, hg, decide_True, Bool.and_self, if_true,
      loopBody_block_block p g hr hp hg]
    exact ih (turn + 1) _ _ hr hp hg

/-- C6 (counterexample): if the player chooses `Block` (menu choice 3) on every
turn and every goblin draw is odd (`Block`), the battle between the fresh hero
and goblin never returns, whatever the number of turns allowed. -/
theorem StepBattle_terminates_counterexample :
    ¬ ∃ (fuel : Nat) (w : Bool) (p g : Entity),
        StepBattle (fun _ => 3) (fun _ => 1) fuel hero goblin = BattleRun.returned w p g := by
  rintro ⟨fuel, w, p, g, h⟩
  have hno := battleLoop_block_forever fuel 0 hero goblin
    (battleReady_constructed "Hero" "Goblin") (by decide) (by decide)
  unfold StepBattle at h
  rw [hno] at h
  exact absurd h (by simp)

/-- C6 (amended): the battle between a constructed player and goblin returns
after finitely many turns for every sequence of choices and every sequence of
draws in which `Attack` keeps coming up: after every turn `n` there is a turn
`m ≥ n` at which the player chooses `Attack` (menu choice 1) or the goblin
draws `Attack` (even draw).  Exactly one side is alive at the return. -/
theorem StepBattle_terminates_of_attacks (pn gn : String)
    (choices : Nat → Int) (draws : Nat → Nat)
    (hinf : ∀ n, ∃ m, n ≤ m ∧ (choices m = 1 ∨ draws m % 2 = 0)) :
    ∃ (fuel : Nat) (w : Bool) (p2 g2 : Entity),
      StepBattle choices draws fuel (Player pn) (Goblin gn) = BattleRun.returned w p2 g2
        ∧ p2.IsAlive ≠ g2.IsAlive := by
  obtain ⟨fuel, w, p2, g2, h⟩ :=
    battleLoop_terminates choices draws hinf 180 0 (Player pn) (Goblin gn)
      (battleReady_constructed pn gn) (by
        simp [Player, Goblin, Entity.AddAction, Entity.mk5])
  refine ⟨fuel, w, p2, g2, h, ?_⟩
  exact (battleLoop_one_alive choices draws fuel 0 (Player pn) (Goblin gn)
    (by simp [Player, Entity.AddAction, Entity.mk5, Entity.IsAlive])
    (by simp [Goblin, Entity.AddAction, Entity.mk5, Entity.IsAlive]) w p2 g2 h).1

/-- C6 (witness): a player who always chooses `Attack` against a goblin that
always draws `Block` gives a battle that returns. -/
theorem StepBattle_terminates_of_attacks_witness :
    (∀ n : Nat, ∃ m, n ≤ m ∧ ((fun _ : Nat => (1 : Int)) m = 1
        ∨ (fun _ : Nat => (1 : Nat)) m % 2 = 0))
      ∧ ∃ (fuel : Nat) (w : Bool) (p2 g2 : Entity),
          StepBattle (fun _ => 1) (fun _ => 1) fuel (Player "Hero") (Goblin "Goblin")
              = BattleRun.returned w p2 g2
            ∧ p2.IsAlive ≠ g2.IsAlive :=
  ⟨fun n => ⟨n, le_refl n, Or.inl rfl⟩,
   StepBattle_terminates_of_attacks "Hero" "Goblin" (fun _ => 1) (fun _ => 1)
     (fun n => ⟨n, le_refl n, Or.inl rfl⟩)⟩

/-! ## C7: the pool ranges under the mutators -/

/-- C7 (counterexample): the fresh hero (health 100, mana 40) is within the
pool ranges, but `Heal (-101)` leaves health at -1, `RestoreMana (-41)` leaves
mana at -1 and `SpendMana (-1)` leaves mana at 41; and with the non-negative
argument 2147483647 the sums overflow: `Heal` leaves health at -2147483549 and
`RestoreMana` leaves mana at -2147483609. -/
theorem mutators_preserve_pools_counterexample :
    poolsInRange hero
      ∧ (hero.Heal (-101)).health = -1 ∧ ¬ poolsInRange (hero.Heal (-101))
      ∧ (hero.RestoreMana (-41)).mana = -1 ∧ ¬ poolsInRange (hero.RestoreMana (-41))
      ∧ (hero.SpendMana (-1)).mana = 41 ∧ ¬ poolsInRange (hero.SpendMana (-1))
      ∧ (hero.Heal 2147483647).health = -2147483549
      ∧ ¬ poolsInRange (hero.Heal 2147483647)
      ∧ (hero.RestoreMana 2147483647).mana = -2147483609
      ∧ ¬ poolsInRange (hero.RestoreMana 2147483647) := by
  decide

/-- C7 (amended): from a state with health in `[0, 100]` and mana in
`[0, 40]`, the following give a state with health in `[0, 100]` and mana in
`[0, 40]` again: `TakeDamage` with any argument, `Heal` with an argument from
0 to 2147483547, `RestoreMana` with an argument from 0 to 2147483607 and
`SpendMana` with an argument from 0 to 2147483647 (the arguments that are not
negative and cannot make the sum overflow). -/
theorem mutators_preserve_pools (self : Entity) (amount : Int)
    (h : poolsInRange self) :
    poolsInRange (self.TakeDamage amount)
      ∧ (0 ≤ amount → amount ≤ 2147483547 → poolsInRange (self.Heal amount))
      ∧ (0 ≤ amount → amount ≤ 2147483607 → poolsInRange (self.RestoreMana amount))
      ∧ (0 ≤ amount → amount ≤ 2147483647 → poolsInRange (self.SpendMana amount)) := by
  obtain ⟨h1, h2, h3, h4⟩ := h
  refine ⟨?_, ?_, ?_, ?_⟩
  · have ha := TakeDamage_health_nonneg self amount
    have hb := TakeDamage_health_le self amount h1
    have hc := (TakeDamage_frame self amount).2.2.1
    unfold poolsInRange
    rw [hc]
    exact ⟨ha, by omega, h3, h4⟩
  · intro hamt hmax
    have hw : wrapInt (self.health + amount) = self.health + amount :=
      wrapInt_eq _ ⟨by omega, by omega⟩
    simp only [poolsInRange, Entity.Heal, hw]
    split <;> omega
  · intro hamt hmax
    have hw : wrapInt (self.mana + amount) = self.mana + amount :=
      wrapInt_eq _ ⟨by omega, by omega⟩
    simp only [poolsInRange, Entity.RestoreMana, hw]
    split <;> omega
  · intro hamt hmax
    have hw : wrapInt (self.mana - amount) = self.mana - amount :=
      wrapInt_eq _ ⟨by omega, by omega⟩
    simp only [poolsInRange, Entity.SpendMana, hw]
    split <;> omega

/-- C7 (witness): the fresh hero stays within the pool ranges under
`TakeDamage 20`, `Heal 20`, `RestoreMana 20` and `SpendMana 20`. -/
theorem mutators_preserve_pools_witness :
    poolsInRange hero
      ∧ poolsInRange (hero.TakeDamage 20)
      ∧ poolsInRange (hero.Heal 20)
      ∧ poolsInRange (hero.RestoreMana 20)
      ∧ poolsInRange (hero.SpendMana 20) :=
  ⟨by decide,
   (mutators_preserve_pools hero 20 (by decide)).1,
   (mutators_preserve_pools hero 20 (by decide)).2.1 (by decide) (by decide),
   (mutators_preserve_pools hero 20 (by decide)).2.2.1 (by decide) (by decide),
   (mutators_preserve_pools hero 20 (by decide)).2.2.2 (by decide) (by decide)⟩

/-! ## C8: `Heal`, `RestoreMana`, `SpendMana` -/

/-- C8 (counterexample): on the fresh hero (health 100, mana 40)
`Heal 2147483647` overflows and leaves health at -2147483549, not at
`min 100 (100 + 2147483647) = 100`; `RestoreMana 2147483647` leaves mana at
-2147483609, not at 40; `SpendMana (-2147483648)` overflows and leaves mana at
0, not at `max 0 (40 + 2147483648) = 2147483688`. -/
theorem pool_mutators_spec_counterexample :
    hero.health = 100 ∧ hero.mana = 40
      ∧ (hero.Heal 2147483647).health = -2147483549
      ∧ min 100 (hero.health + 2147483647) = 100
      ∧ hero.Heal 2147483647 ≠ { hero with health := min 100 (hero.health + 2147483647) }
      ∧ (hero.RestoreMana 2147483647).mana = -2147483609
      ∧ min 40 (hero.mana + 2147483647) = 40
      ∧ hero.RestoreMana 2147483647 ≠ { hero with mana := min 40 (hero.mana + 2147483647) }
      ∧ (hero.SpendMana (-2147483648)).mana = 0
      ∧ max 0 (hero.mana - (-2147483648)) = 2147483688
      ∧ hero.SpendMana (-2147483648)
          ≠ { hero with mana := max 0 (hero.mana - (-2147483648)) } := by
  decide

/-- C8 (amended): for every entity and every amount for which the sum or
difference does not overflow, `Heal` sets health to `min 100 (health + amount)`,
`RestoreMana` sets mana to `min 40 (mana + amount)` and `SpendMana` sets mana
to `max 0 (mana - amount)`, each changing no other field; so health after
`Heal` is then at most 100, mana after `RestoreMana` at most 40, mana after
`SpendMana` at least 0, and health after a `TakeDamage` without overflow at
least 0. -/
theorem pool_mutators_spec (self : Entity) (amount : Int) :
    (inInt (self.health + amount) →
        self.Heal amount = { self with health := min 100 (self.health + amount) }
          ∧ (self.Heal amount).health ≤ 100)
      ∧ (inInt (self.mana + amount) →
        self.RestoreMana amount = { self with mana := min 40 (self.mana + amount) }
          ∧ (self.RestoreMana amount).mana ≤ 40)
      ∧ (inInt (self.mana - amount) →
        self.SpendMana amount = { self with mana := max 0 (self.mana - amount) }
          ∧ 0 ≤ (self.SpendMana amount).mana)
      ∧ (inInt (amount - self.armor) →
        inInt (self.health -
          (if self.isBlocking then Int.tdiv (max 0 (amount - self.armor)) 2
           else max 0 (amount - self.armor))) →
        0 ≤ (self.TakeDamage amount).health) := by
  have e1 : (if self.health + amount > 100 then 100 else self.health + amount)
      = min 100 (self.health + amount) := by
    split <;> omega
  have e2 : (if self.mana + amount > 40 then 40 else self.mana + amount)
      = min 40 (self.mana + amount) := by
    split <;> omega
  have e3 : (if self.mana - amount < 0 then 0 else self.mana - amount)
      = max 0 (self.mana - amount) := by
    split <;> omega
  refine ⟨?_, ?_, ?_, ?_⟩
  · intro h
    have hw := wrapInt_eq _ h
    constructor
    · simp only [Entity.Heal, hw, e1]
    · simp only [Entity.Heal, hw, e1]
      exact min_le_left _ _
  · intro h
    have hw := wrapInt_eq _ h
    constructor
    · simp only [Entity.RestoreMana, hw, e2]
    · simp only [Entity.RestoreMana, hw, e2]
      exact min_le_left _ _
  · intro h
    have hw := wrapInt_eq _ h
    constructor
    · simp only [Entity.SpendMana, hw, e3]
    · simp only [Entity.SpendMana, hw, e3]
      exact le_max_left _ _
  · intro h1 h2
    rw [TakeDamage_health_eq self amount h1 h2]
    exact le_max_left _ _

/-- C8 (witness): on the fresh hero `Heal 20` leaves health at 100,
`RestoreMana 20` leaves mana at 40, `SpendMana 10` leaves mana at 30, and
`TakeDamage 15` leaves health at 90. -/
theorem pool_mutators_spec_witness :
    (hero.Heal 20 = { hero with health := min 100 (hero.health + 20) }
        ∧ (hero.Heal 20).health ≤ 100)
      ∧ (hero.RestoreMana 20 = { hero with mana := min 40 (hero.mana + 20) }
        ∧ (hero.RestoreMana 20).mana ≤ 40)
      ∧ (hero.SpendMana 10 = { hero with mana := max 0 (hero.mana - 10) }
        ∧ 0 ≤ (hero.SpendMana 10).mana)
      ∧ 0 ≤ (hero.TakeDamage 15).health
      ∧ (hero.SpendMana 10).mana = 30 ∧ (hero.TakeDamage 15).health = 90 :=
  ⟨(pool_mutators_spec hero 20).1 (by decide),
   (pool_mutators_spec hero 20).2.1 (by decide),
   (pool_mutators_spec hero 10).2.2.1 (by decide),
   (pool_mutators_spec hero 15).2.2.2 (by decide) (by decide),
   by decide, by decide⟩

/-! ## C9: `ActionFactory::CreateAction` -/

/-- C9: `CreateAction` returns `Attack` exactly for "Attack", `Fireball`
exactly for "Fireball" and `Block` exactly for "Block"; every other string,
the empty string and "attack" among them, gives the empty result, so the
result is non-empty exactly for the three identifiers. -/
theorem CreateAction_spec (actionName : String) :
    (CreateAction actionName = some IAction.Attack ↔ actionName = "Attack")
      ∧ (CreateAction actionName = some IAction.Fireball ↔ actionName = "Fireball")
      ∧ (CreateAction actionName = some IAction.Block ↔ actionName = "Block")
      ∧ (CreateAction actionName = none ↔
          actionName ≠ "Attack" ∧ actionName ≠ "Fireball" ∧ actionName ≠ "Block")
      ∧ ((CreateAction actionName).isSome = true ↔
          actionName = "Attack" ∨ actionName = "Fireball" ∨ actionName = "Block")
      ∧ CreateAction "" = none
      ∧ CreateAction "attack" = none := by
  have hAF : ("Attack" : String) ≠ "Fireball" := by decide
  have hAB : ("Attack" : String) ≠ "Block" := by decide
  have hFB : ("Fireball" : String) ≠ "Block" := by decide
  refine ⟨?_, ?_, ?_, ?_, ?_, by decide, by decide⟩ <;> unfold CreateAction <;>
    by_cases h1 : actionName = "Attack" <;>
    by_cases h2 : actionName = "Fireball" <;>
    by_cases h3 : actionName = "Block" <;>
    simp_all

/-! ## C10: `Attack::Execute` -/

/-- C11: `Block::Execute` sets the defending flag of the actor and changes
nothing else: every other field of the actor and the whole target are as
before, no mana is spent, and executing it a second time changes nothing. -/
theorem Block_Execute_spec (actor target : Entity) :
    IAction.Block.Execute actor target = ({ actor with isBlocking := true }, target)
      ∧ (IAction.Block.Execute actor target).1.isBlocking = true
      ∧ (IAction.Block.Execute actor target).1.name = actor.name
      ∧ (IAction.Block.Execute actor target).1.health = actor.health
      ∧ (IAction.Block.Execute actor target).1.energy = actor.energy
      ∧ (IAction.Block.Execute actor target).1.mana = actor.mana
      ∧ (IAction.Block.Execute actor target).1.armor = actor.armor
      ∧ (IAction.Block.Execute actor target).1.actions = actor.actions
      ∧ (IAction.Block.Execute actor target).2 = target
      ∧ IAction.Block.Execute (IAction.Block.Execute actor target).1
            (IAction.Block.Execute actor target).2
          = IAction.Block.Execute actor target := by
  refine ⟨rfl, rfl, rfl, rfl, rfl, rfl, rfl, rfl, rfl, ?_⟩
  simp only [IAction.Execute, Entity.SetBlocking]

/-! ## C12: an out-of-range menu choice -/

/-- With three registered actions, every menu choice other than 1, 2 and 3
leaves both entities as they are. -/
theorem PerformAction_invalid_choice (p g : Entity) (c : Int)
    (hlen : p.actions.length = 3) (hc : c ≠ 1 ∧ c ≠ 2 ∧ c ≠ 3) :
    p.PerformAction (c - 1) g = some (p, g) := by
  have hn : ¬ (0 ≤ c - 1 ∧ (c - 1).toNat < p.actions.length) := by
    rw [hlen]
    omega
  unfold Entity.PerformAction
  rw [dif_neg hn]

/-- C12: in an iteration of the loop of `StepBattle` entered with both sides
alive, a menu choice other than 1, 2, 3 (index out of range for the three
actions of the player) changes neither entity during the turn of the player;
the goblin then takes its turn in the same iteration on the unchanged state,
and the iteration counts as a turn: the loop goes on with the next choice (or
returns false if the goblin has just defeated the player). -/
theorem invalid_choice_consumes_turn (choices : Nat → Int) (draws : Nat → Nat)
    (fuel turn : Nat) (p g : Entity) (hlen : p.actions.length = 3)
    (hc : choices turn ≠ 1 ∧ choices turn ≠ 2 ∧ choices turn ≠ 3)
    (hp : p.IsAlive = true) (hg : g.IsAlive = true) :
    p.PerformAction (choices turn - 1) g = some (p, g)
      ∧ ∀ g2 p2, g.PerformAction ((draws turn : Int) % 2) p = some (g2, p2) →
          (p2.IsAlive = true →
              loopBody (choices turn) (draws turn) p g = BodyRun.continues p2 g2
                ∧ battleLoop choices draws (fuel + 1) turn p g
                    = battleLoop choices draws fuel (turn + 1) p2 g2)
            ∧ (p2.IsAlive = false →
              loopBody (choices turn) (draws turn) p g = BodyRun.broke p2 g2
                ∧ battleLoop choices draws (fuel + 1) turn p g
                    = BattleRun.returned false p2 g2) := by
  have h1 := PerformAction_invalid_choice p g (choices turn) hlen hc
  refine ⟨h1, ?_⟩
  intro g2 p2 h2
  constructor
  · intro hp2
    have hb : loopBody (choices turn) (draws turn) p g = BodyRun.continues p2 g2 := by
      simp only [loopBody, h1, hg, h2, hp2, Bool.not_true, Bool.false_eq_true, if_false]
    refine ⟨hb, ?_⟩
    rw [battleLoop]
    simp only [hp, hg, Bool.and_self, if_true, hb]
  · intro hp2
    have hb : loopBody (choices turn) (draws turn) p g = BodyRun.broke p2 g2 := by
      simp only [loopBody, h1, hg, h2, hp2, Bool.not_true, Bool.false_eq_true, if_false,
        Bool.not_false, if_true]
    refine ⟨hb, ?_⟩
    rw [battleLoop]
    simp only [hp, hg, Bool.and_self, if_true, hb, battleResult, hp2, Bool.not_false]

/-- C12 (witness): the hero enters 7; nothing changes in its turn, the goblin
attacks, and the loop goes on from the hero at 90 health and the untouched
goblin. -/
theorem invalid_choice_consumes_turn_witness :
    hero.PerformAction ((fun _ : Nat => (7 : Int)) 0 - 1) goblin = some (hero, goblin)
      ∧ (hero.TakeDamage 15).health = 90
      ∧ loopBody 7 0 hero goblin = BodyRun.continues (hero.TakeDamage 15) goblin
      ∧ battleLoop (fun _ => 7) (fun _ => 0) 1 0 hero goblin
          = battleLoop (fun _ => 7) (fun _ => 0) 0 1 (hero.TakeDamage 15) goblin :=
  ⟨(invalid_choice_consumes_turn (fun _ => 7) (fun _ => 0) 0 0 hero goblin
      (by decide) (by decide) (by decide) (by decide)).1,
   by decide,
   (((invalid_choice_consumes_turn (fun _ => 7) (fun _ => 0) 0 0 hero goblin
      (by decide) (by decide) (by decide) (by decide)).2 goblin (hero.TakeDamage 15)
      (by decide)).1 (by decide)).1,
   (((invalid_choice_consumes_turn (fun _ => 7) (fun _ => 0) 0 0 hero goblin
      (by decide) (by decide) (by decide) (by decide)).2 goblin (hero.TakeDamage 15)
      (by decide)).1 (by decide)).2⟩

/-! ## C13: a defeated side never acts -/

/-- C13: the player acts first in every iteration, on the state the loop was
entered with.  If that action leaves the goblin not alive, the body breaks at
once and `StepBattle` returns true with the player exactly as that action left
it: the goblin does not act.  If the goblin survives and its action leaves the
player not alive, the body breaks and `StepBattle` returns false with both
entities as that action left them: the player does not act again.  A loop
reached with a side not alive runs no action at all. -/
theorem defeated_side_never_acts (choices : Nat → Int) (draws : Nat → Nat)
    (fuel turn : Nat) (p g : Entity)
    (hp : p.IsAlive = true) (hg : g.IsAlive = true) :
    (∀ p1 g1, p.PerformAction (choices turn - 1) g = some (p1, g1) →
        g1.IsAlive = false →
        loopBody (choices turn) (draws turn) p g = BodyRun.broke p1 g1
          ∧ battleLoop choices draws (fuel + 1) turn p g = BattleRun.returned true p1 g1)
      ∧ (∀ p1 g1 g2 p2, p.PerformAction (choices turn - 1) g = some (p1, g1) →
        g1.IsAlive = true →
        g1.PerformAction ((draws turn : Int) % 2) p1 = some (g2, p2) →
        p2.IsAlive = false →
        loopBody (choices turn) (draws turn) p g = BodyRun.broke p2 g2
          ∧ battleLoop choices draws (fuel + 1) turn p g = BattleRun.returned false p2 g2)
      ∧ (∀ q h : Entity, (q.IsAlive && h.IsAlive) = false →
        battleLoop choices draws fuel turn q h = battleResult q h) := by
  refine ⟨?_, ?_, ?_⟩
  · intro p1 g1 h1 hg1
    have hp1 : p1.IsAlive = true := by
      have := PerformAction_actor_health p g _ p1 g1 h1
      simp only [Entity.IsAlive, this]
      exact hp
    have hb : loopBody (choices turn) (draws turn) p g = BodyRun.broke p1 g1 := by
      simp only [loopBody, h1, hg1, Bool.not_false, if_true]
    refine ⟨hb, ?_⟩
    rw [battleLoop]
    simp only [hp, hg, Bool.and_self, if_true, hb, battleResult, hp1, Bool.not_true,
      Bool.false_eq_true, if_false]
  · intro p1 g1 g2 p2 h1 hg1 h2 hp2
    have hb : loopBody (choices turn) (draws turn) p g = BodyRun.broke p2 g2 := by
      simp only [loopBody, h1, hg1, h2, hp2, Bool.not_true, Bool.false_eq_true, if_false,
        Bool.not_false, if_true]
    refine ⟨hb, ?_⟩
    rw [battleLoop]
    simp only [hp, hg, Bool.and_self, if_true, hb, battleResult, hp2, Bool.not_false]
  · intro q h hdead
    cases fuel <;> simp only [battleLoop, hdead, Bool.false_eq_true, if_false]

/-- C13 (witness): the hero attacks a goblin that has 8 health left; the
goblin is defeated, does not act (the hero keeps its 100 health whatever the
draw) and `StepBattle` returns true. -/
theorem defeated_side_never_acts_witness :
    hero.PerformAction ((fun _ : Nat => (1 : Int)) 0 - 1) goblinAtEight
        = some (hero, goblinDefeated)
      ∧ loopBody 1 0 hero goblinAtEight = BodyRun.broke hero goblinDefeated
      ∧ battleLoop (fun _ => 1) (fun _ => 0) 1 0 hero goblinAtEight
          = BattleRun.returned true hero goblinDefeated :=
  ⟨by decide,
   ((defeated_side_never_acts (fun _ => 1) (fun _ => 0) 0 0 hero goblinAtEight
      (by decide) (by decide)).1 hero goblinDefeated (by decide) (by decide)).1,
   ((defeated_side_never_acts (fun _ => 1) (fun _ => 0) 0 0 hero goblinAtEight
      (by decide) (by decide)).1 hero goblinDefeated (by decide) (by decide)).2⟩

/-! ## C14: what `PerformAction` leaves alone -/

/-- The fields no action writes: name and energy of both entities and the mana
of the target. -/
theorem Execute_frame_rest (act : IAction) (actor target : Entity) :
    (act.Execute actor target).1.name = actor.name
      ∧ (act.Execute actor target).1.energy = actor.energy
      ∧ (act.Execute actor target).2.name = target.name
      ∧ (act.Execute actor target).2.energy = target.energy
      ∧ (act.Execute actor target).2.mana = target.mana := by
  cases act
  · exact ⟨rfl, rfl, rfl, rfl, rfl⟩
  · simp only [IAction.Execute]
    split
    · exact ⟨rfl, rfl, rfl, rfl, rfl⟩
    · exact ⟨rfl, rfl, rfl, rfl, rfl⟩
  · exact ⟨rfl, rfl, rfl, rfl, rfl⟩

theorem PerformAction_frame_rest (self target : Entity) (index : Int) (a b : Entity)
    (h : self.PerformAction index target = some (a, b)) :
    a.name = self.name ∧ a.energy = self.energy
      ∧ b.name = target.name ∧ b.energy = target.energy ∧ b.mana = target.mana := by
  unfold Entity.PerformAction at h
  split at h
  · unfold executePtr at h
    split at h
    · rename_i act _
      have h2 := Execute_frame_rest act self target
      simp only [Option.some.injEq] at h
      rw [h] at h2
      exact h2
    · exact absurd h (by simp)
  · simp only [Option.some.injEq, Prod.mk.injEq] at h
    rw [← h.1, ← h.2]
    exact ⟨rfl, rfl, rfl, rfl, rfl⟩

/-- C14: for every actor, every distinct target and every index, the result
`(a, b)` of `PerformAction` has the name, armor, energy and action list of
both entities unchanged, the health of the actor unchanged and the mana of
the target unchanged; and there is such a result whenever the action list of
the actor holds no empty pointer. -/
theorem PerformAction_changes_only (self target : Entity) (index : Int) :
    (∀ a b, self.PerformAction index target = some (a, b) →
        (a.name = self.name ∧ a.armor = self.armor ∧ a.energy = self.energy
          ∧ a.actions = self.actions ∧ a.health = self.health)
        ∧ (b.name = target.name ∧ b.armor = target.armor ∧ b.energy = target.energy
          ∧ b.actions = target.actions ∧ b.mana = target.mana))
      ∧ ((∀ ptr ∈ self.actions, ptr ≠ none) →
          ∃ a b, self.PerformAction index target = some (a, b)) := by
  constructor
  · intro a b h
    obtain ⟨f1, f2, f3, f4, _⟩ := PerformAction_frame self target index a b h
    obtain ⟨r1, r2, r3, r4, r5⟩ := PerformAction_frame_rest self target index a b h
    exact ⟨⟨r1, f1, r2, f2, PerformAction_actor_health self target index a b h⟩,
      ⟨r3, f3, r4, f4, r5⟩⟩
  · exact PerformAction_isSome self target index

/-- C14 (witness): the hero casting the fireball at the goblin changes only
its own mana (40 to 30) and the health of the goblin (80 to 62). -/
theorem PerformAction_changes_only_witness :
    hero.PerformAction 1 goblin
        = some ({ hero with mana := 30 }, { goblin with health := 62 })
      ∧ ((({ hero with mana := 30 } : Entity).name = hero.name
          ∧ ({ hero with mana := 30 } : Entity).armor = hero.armor
          ∧ ({ hero with mana := 30 } : Entity).energy = hero.energy
          ∧ ({ hero with mana := 30 } : Entity).actions = hero.actions
          ∧ ({ hero with mana := 30 } : Entity).health = hero.health)
        ∧ (({ goblin with health := 62 } : Entity).name = goblin.name
          ∧ ({ goblin with health := 62 } : Entity).armor = goblin.armor
          ∧ ({ goblin with health := 62 } : Entity).energy = goblin.energy
          ∧ ({ goblin with health := 62 } : Entity).actions = goblin.actions
          ∧ ({ goblin with health := 62 } : Entity).mana = goblin.mana)) :=
  ⟨by decide,
   (PerformAction_changes_only hero goblin 1).1 _ _ (by decide)⟩

/-! ## C15: the constructors register no empty action -/

/-- C15: the action list of a constructed player is `[Attack, Fireball, Block]`
and that of a constructed goblin is `[Attack, Block]`, each entry being the
non-empty result of the factory; so `PerformAction` on them, with any index and
target, never goes through an empty pointer. -/
theorem constructed_actions_nonempty (pn gn : String) :
    (Player pn).actions
        = [CreateAction "Attack", CreateAction "Fireball", CreateAction "Block"]
      ∧ (Player pn).actions
        = [some IAction.Attack, some IAction.Fireball, some IAction.Block]
      ∧ (Goblin gn).actions = [CreateAction "Attack", CreateAction "Block"]
      ∧ (Goblin gn).actions = [some IAction.Attack, some IAction.Block]
      ∧ (∀ ptr ∈ (Player pn).actions, ptr ≠ none)
      ∧ (∀ ptr ∈ (Goblin gn).actions, ptr ≠ none)
      ∧ (∀ (index : Int) (target : Entity),
          (∃ a b, (Player pn).PerformAction index target = some (a, b))
            ∧ ∃ a b, (Goblin gn).PerformAction index target = some (a, b)) := by
  obtain ⟨hnp, hng⟩ := battleReady_no_null _ _ (battleReady_constructed pn gn)
  refine ⟨rfl, ?_, rfl, ?_, hnp, hng, ?_⟩
  · exact (battleReady_constructed pn gn).2.2.1
  · exact (battleReady_constructed pn gn).2.2.2
  · intro index target
    exact ⟨PerformAction_isSome _ target index hnp, PerformAction_isSome _ target index hng⟩

/-! ## C16: the goblin's choice of action -/

/-- The loop body passes `gobChoice draw` to the goblin's `PerformAction`. -/
theorem loopBody_gobChoice (choice : Int) (draw : Nat) (p g : Entity) :
    loopBody choice draw p g
      = match p.PerformAction (choice - 1) g with
        | none => BodyRun.nullAction
        | some (p1, g1) =>
          if !g1.IsAlive then BodyRun.broke p1 g1
          else
            match g1.PerformAction (gobChoice draw) p1 with
            | none => BodyRun.nullAction
            | some (g2, p2) =>
              if !p2.IsAlive then BodyRun.broke p2 g2 else BodyRun.continues p2 g2 :=
  rfl

/-- C16 (counterexample): the goblin has no registered action that the choice
`rand() % 2` can never select: index 0 is selected by the draw 0 and index 1 by
the draw 1, and these are all its indices. -/
theorem gobChoice_strict_subset_counterexample :
    ¬ ∃ i : Nat, i < goblin.actions.length ∧ ∀ draw : Nat, gobChoice draw ≠ (i : Int) := by
  rintro ⟨i, hi, h⟩
  have hlen : goblin.actions.length = 2 := by decide
  rw [hlen] at hi
  have h0 : gobChoice 0 = 0 := by decide
  have h1 : gobChoice 1 = 1 := by decide
  rcases Nat.lt_succ_iff_lt_or_eq.mp hi with hlt | heq
  · have hi0 : i = 0 := by omega
    exact h 0 (by rw [h0, hi0]; rfl)
  · exact h 1 (by rw [h1, heq]; rfl)

/-- C16 (amended): the choice `rand() % 2` is always index 0 or 1, and these
are exactly the indices of the two registered actions of a constructed goblin
(`Attack` and `Block`): every registered action is selected by some draw. -/
theorem gobChoice_covers_actions (gn : String) (draw : Nat) :
    (gobChoice draw = 0 ∨ gobChoice draw = 1)
      ∧ (0 ≤ gobChoice draw ∧ gobChoice draw < ((Goblin gn).actions.length : Int))
      ∧ (Goblin gn).actions.length = 2
      ∧ (Goblin gn).actions = [some IAction.Attack, some IAction.Block]
      ∧ (∀ i : Nat, i < (Goblin gn).actions.length → ∃ d : Nat, gobChoice d = (i : Int)) := by
  have hlen : (Goblin gn).actions.length = 2 := by
    rw [(battleReady_constructed "" gn).2.2.2]
    rfl
  refine ⟨?_, ?_, hlen, (battleReady_constructed "" gn).2.2.2, ?_⟩
  · unfold gobChoice
    omega
  · rw [hlen]
    unfold gobChoice
    omega
  · intro i hi
    rw [hlen] at hi
    refine ⟨i, ?_⟩
    unfold gobChoice
    omega

/-! ## C17: the pools in every reachable state -/

/-- An action never raises the mana of its actor and never takes it below 0. -/
theorem Execute_actor_mana (act : IAction) (actor target : Entity) :
    (act.Execute actor target).1.mana ≤ actor.mana
      ∧ (0 ≤ actor.mana → 0 ≤ (act.Execute actor target).1.mana) := by
  cases act
  · exact ⟨le_refl _, fun h => h⟩
  · simp only [IAction.Execute, Entity.HasMana]
    split
    · exact ⟨le_refl _, fun h => h⟩
    · rename_i hm
      simp only [Bool.not_eq_true, Bool.not_eq_false_eq_eq_true, decide_eq_true_eq,
        Bool.not_eq_eq_eq_not, Bool.not_true, decide_eq_false_iff_not, not_not] at hm
      simp only [Entity.SpendMana, wrapInt]
      split <;> constructor <;> intros <;> omega
  · exact ⟨le_refl _, fun h => h⟩

theorem PerformAction_actor_mana (self target : Entity) (index : Int) (a b : Entity)
    (h : self.PerformAction index target = some (a, b)) :
    a.mana ≤ self.mana ∧ (0 ≤ self.mana → 0 ≤ a.mana) := by
  unfold Entity.PerformAction at h
  split at h
  · unfold executePtr at h
    split at h
    · rename_i act _
      have h2 := Execute_actor_mana act self target
      simp only [Option.some.injEq] at h
      rw [h] at h2
      exact h2
    · exact absurd h (by simp)
  · simp only [Option.some.injEq, Prod.mk.injEq] at h
    rw [← h.1]
    exact ⟨le_refl _, fun h0 => h0⟩

/-- Every call keeps the armor values, the action lists and the pool ranges,
and goes through no empty pointer. -/
theorem applyEvent_preserves (e : GameEvent) (p g : Entity)
    (hr : battleReady p g) (hi : gameRanges p g) :
    ∃ p2 g2, applyEvent e (p, g) = some (p2, g2) ∧ battleReady p2 g2 ∧ gameRanges p2 g2 := by
  obtain ⟨hnp, hng⟩ := battleReady_no_null p g hr
  obtain ⟨hpar, hgar, hpa, hga⟩ := hr
  obtain ⟨⟨hp0, hp1⟩, ⟨hm0, hm1⟩, ⟨hg0, hg1⟩, hgm⟩ := hi
  cases e with
  | playerActs index =>
    obtain ⟨a, b, h⟩ := PerformAction_isSome p g index hnp
    obtain ⟨f1, f2, f3, f4, f5⟩ := PerformAction_frame p g index a b h
    obtain ⟨_, _, _, _, r5⟩ := PerformAction_frame_rest p g index a b h
    have f6 := PerformAction_actor_health p g index a b h
    obtain ⟨m1, m2⟩ := PerformAction_actor_mana p g index a b h
    obtain ⟨f7, f8⟩ := f5 hg0
    have m3 := m2 hm0
    refine ⟨a, b, h, ⟨by omega, by omega, f2.trans hpa, f4.trans hga⟩, ?_⟩
    exact ⟨⟨by omega, by omega⟩, ⟨m3, by omega⟩, ⟨f7, by omega⟩, by omega⟩
  | goblinActs index =>
    obtain ⟨a, b, h⟩ := PerformAction_isSome g p index hng
    obtain ⟨f1, f2, f3, f4, f5⟩ := PerformAction_frame g p index a b h
    obtain ⟨_, _, _, _, r5⟩ := PerformAction_frame_rest g p index a b h
    have f6 := PerformAction_actor_health g p index a b h
    obtain ⟨m1, m2⟩ := PerformAction_actor_mana g p index a b h
    obtain ⟨f7, f8⟩ := f5 hp0
    have m3 := m2 (by omega)
    refine ⟨b, a, ?_, ⟨by omega, by omega, f4.trans hpa, f2.trans hga⟩, ?_⟩
    · simp only [applyEvent, h]
    · exact ⟨⟨f7, by omega⟩, ⟨by omega, by omega⟩, ⟨by omega, by omega⟩, by omega⟩
  | healPickup =>
    refine ⟨p.Heal 20, g, rfl, ⟨hpar, hgar, hpa, hga⟩, ?_⟩
    simp only [gameRanges, Entity.Heal, wrapInt]
    refine ⟨?_, ⟨hm0, hm1⟩, ⟨hg0, hg1⟩, hgm⟩
    split <;> omega
  | manaPickup =>
    refine ⟨p.RestoreMana 20, g, rfl, ⟨hpar, hgar, hpa, hga⟩, ?_⟩
    simp only [gameRanges, Entity.RestoreMana, wrapInt]
    refine ⟨⟨hp0, hp1⟩, ?_, ⟨hg0, hg1⟩, hgm⟩
    split <;> omega

theorem runEvents_preserves (events : List GameEvent) :
    ∀ (p g : Entity), battleReady p g → gameRanges p g →
      ∃ p2 g2, runEvents events (p, g) = some (p2, g2)
        ∧ battleReady p2 g2 ∧ gameRanges p2 g2 := by
  induction events with
  | nil =>
    intro p g hr hi
    exact ⟨p, g, rfl, hr, hi⟩
  | cons e es ih =>
    intro p g hr hi
    obtain ⟨p1, g1, h1, hr1, hi1⟩ := applyEvent_preserves e p g hr hi
    obtain ⟨p2, g2, h2, hr2, hi2⟩ := ih p1 g1 hr1 hi1
    refine ⟨p2, g2, ?_, hr2, hi2⟩
    simp only [runEvents, h1]
    exact h2

/-- C17: every finite sequence of `PerformAction` calls with arbitrary indices
(player on goblin, goblin on player) and of the pickups `Heal(20)` and
`RestoreMana(20)` on the player, started from the constructed player and
goblin, runs to a state in which the health of the player is in `[0, 100]`,
its mana in `[0, 40]`, the health of the goblin in `[0, 80]` and its mana 0. -/
theorem reachable_pools_in_range (pn gn : String) (events : List GameEvent) :
    ∃ p g, runEvents events (Player pn, Goblin gn) = some (p, g)
      ∧ (0 ≤ p.health ∧ p.health ≤ 100) ∧ (0 ≤ p.mana ∧ p.mana ≤ 40)
      ∧ (0 ≤ g.health ∧ g.health ≤ 80) ∧ g.mana = 0 := by
  obtain ⟨p, g, h, _, hi⟩ := runEvents_preserves events (Player pn) (Goblin gn)
    (battleReady_constructed pn gn) (by
      simp [gameRanges, Player, Goblin, Entity.AddAction, Entity.mk5])
  exact ⟨p, g, h, hi⟩

/-! ## C18: a player who always attacks -/

/-- An `Attack` on an entity with armor 7 and health from 0 to 100 takes 8
health, or 4 if it defends. -/
theorem TakeDamage_fifteen_armor_seven (g : Entity) (harm : g.armor = 7)
    (hlo : 0 ≤ g.health) (hhi : g.health ≤ 100) :
    (g.TakeDamage 15).health = max 0 (g.health - (if g.isBlocking then 4 else 8)) := by
  have h8 : wrapInt (15 - 7) = 8 := by decide
  rw [TakeDamage_health_wrap, harm, h8]
  cases g.isBlocking
  · simp only [Bool.false_eq_true, if_false]
    rw [show max (0 : Int) 8 = 8 from rfl, wrapInt_eq _ ⟨by omega, by omega⟩]
  · simp only [if_true]
    rw [show Int.tdiv (max (0 : Int) 8) 2 = 4 from rfl, wrapInt_eq _ ⟨by omega, by omega⟩]

/-- An `Attack` on an entity with armor 5 and health from 0 to 100 that does
not defend takes 10 health. -/
theorem TakeDamage_fifteen_armor_five (p : Entity) (harm : p.armor = 5)
    (hb : p.isBlocking = false) (hlo : 0 ≤ p.health) (hhi : p.health ≤ 100) :
    (p.TakeDamage 15).health = max 0 (p.health - 10) := by
  have h10 : wrapInt (15 - 5) = 10 := by decide
  rw [TakeDamage_health_wrap, harm, hb, h10]
  simp only [Bool.false_eq_true, if_false]
  rw [show max (0 : Int) 10 = 10 from rfl, wrapInt_eq _ ⟨by omega, by omega⟩]

/-- The loop body when the player chooses `Attack` and this defeats the goblin. -/
theorem loopBody_attack_kills (draw : Nat) (p g : Entity) (rest : List (Option IAction))
    (hpa : p.actions = some IAction.Attack :: rest)
    (hdead : (g.TakeDamage 15).IsAlive = false) :
    loopBody 1 draw p g = BodyRun.broke p (g.TakeDamage 15) := by
  have h1 : p.PerformAction (1 - 1) g = some (p, g.TakeDamage 15) :=
    PerformAction_zero_attack p g rest hpa
  simp only [loopBody, h1, hdead, Bool.not_false, if_true]

/-- The loop body when the player chooses `Attack`, the goblin survives and
draws `Attack`. -/
theorem loopBody_attack_attack (draw : Nat) (p g : Entity)
    (rest rest2 : List (Option IAction))
    (hpa : p.actions = some IAction.Attack :: rest)
    (hga : g.actions = some IAction.Attack :: rest2)
    (hg1 : (g.TakeDamage 15).IsAlive = true) (hd : draw % 2 = 0)
    (hp1 : (p.TakeDamage 15).IsAlive = true) :
    loopBody 1 draw p g = BodyRun.continues (p.TakeDamage 15) (g.TakeDamage 15) := by
  have h1 : p.PerformAction (1 - 1) g = some (p, g.TakeDamage 15) :=
    PerformAction_zero_attack p g rest hpa
  have hd2 : (draw : Int) % 2 = 0 := by omega
  have h2 : (g.TakeDamage 15).PerformAction ((draw : Int) % 2) p
      = some (g.TakeDamage 15, p.TakeDamage 15) := by
    rw [hd2]
    exact PerformAction_zero_attack (g.TakeDamage 15) p rest2 hga
  simp only [loopBody, h1, hg1, h2, hp1, Bool.not_true, Bool.false_eq_true, if_false]

/-- The loop body when the player chooses `Attack`, the goblin survives and
draws `Block`. -/
theorem loopBody_attack_block (draw : Nat) (p g : Entity)
    (rest : List (Option IAction))
    (hpa : p.actions = some IAction.Attack :: rest)
    (hga : g.actions = [some IAction.Attack, some IAction.Block])
    (hg1 : (g.TakeDamage 15).IsAlive = true) (hd : draw % 2 = 1)
    (hp : p.IsAlive = true) :
    loopBody 1 draw p g
      = BodyRun.continues p ((g.TakeDamage 15).SetBlocking true) := by
  have h1 : p.PerformAction (1 - 1) g = some (p, g.TakeDamage 15) :=
    PerformAction_zero_attack p g rest hpa
  have hd2 : (draw : Int) % 2 = 1 := by omega
  have hga1 : (g.TakeDamage 15).actions = [some IAction.Attack, some IAction.Block] := hga
  have h2 : (g.TakeDamage 15).PerformAction ((draw : Int) % 2) p
      = some ((g.TakeDamage 15).SetBlocking true, p) := by
    rw [hd2, PerformAction_eq_get?, hga1]
    rfl
  simp only [loopBody, h1, hg1, h2, hp, Bool.not_true, Bool.false_eq_true, if_false]

/-- The loop with the player always choosing `Attack`: if the health of the
goblin (at most 80) plus 4 when it defends is at most `4 * fuel + 4`, and the
player (at most 100 health) has 10 health for every 8 of that amount (rounded
up), the loop returns true within `fuel` iterations with the player at 10
health or more. -/
theorem battleLoop_always_attack (draws : Nat → Nat) (fuel : Nat) :
    ∀ (turn : Nat) (p g : Entity), battleReady p g → p.isBlocking = false →
      0 < g.health → g.health % 4 = 0 → 1 ≤ fuel →
      g.health + (if g.isBlocking then 4 else 0) ≤ 4 * (fuel : Int) + 4 →
      10 * ((g.health + (if g.isBlocking then 4 else 0) + 7) / 8) ≤ p.health →
      g.health ≤ 80 → p.health ≤ 100 →
      ∃ p2 g2, battleLoop (fun _ => 1) draws fuel turn p g = BattleRun.returned true p2 g2
        ∧ 10 ≤ p2.health := by
  induction fuel with
  | zero =>
    intro turn p g _ _ _ _ h1
    exact absurd h1 (by decide)
  | succ n ih =>
    intro turn p g hr hpb hg h4 _ hE hP hg80 hp100
    obtain ⟨hpar, hgar, hpa, hga⟩ := hr
    have hp10 : 10 ≤ p.health := by
      cases hgb : g.isBlocking <;> simp only [hgb, if_true, if_false, Bool.false_eq_true] at hP <;>
        omega
    have hgh := TakeDamage_fifteen_armor_seven g hgar (by omega) (by omega)
    have hph := TakeDamage_fifteen_armor_five p hpar hpb (by omega) hp100
    have hpal : p.IsAlive = true := by
      simp only [Entity.IsAlive, decide_eq_true_eq]
      omega
    have hgal : g.IsAlive = true := by
      simp only [Entity.IsAlive, decide_eq_true_eq]
      exact hg
    rw [battleLoop]
    simp only [hpal, hgal, Bool.and_self, if_true]
    by_cases hdead : (g.TakeDamage 15).IsAlive = true
    · have hg1 : 0 < (g.TakeDamage 15).health := by
        simpa [Entity.IsAlive] using hdead
      have hg1b : (g.TakeDamage 15).isBlocking = false := TakeDamage_clears_flag g 15
      have hn : 1 ≤ n := by
        cases hgb : g.isBlocking <;>
          simp only [hgb, if_true, if_false, Bool.false_eq_true] at hE hgh <;> omega
      rcases Nat.mod_two_eq_zero_or_one (draws turn) with hd | hd
      · have hp1h : (p.TakeDamage 15).health = p.health - 10 := by
          rw [hph]
          omega
        have hp1 : (p.TakeDamage 15).IsAlive = true := by
          simp only [Entity.IsAlive, decide_eq_true_eq, hp1h]
          cases hgb : g.isBlocking <;>
            simp only [hgb, if_true, if_false, Bool.false_eq_true] at hP hgh <;> omega
        rw [loopBody_attack_attack (draws turn) p g _ _ hpa hga hdead hd hp1]
        refine ih (turn + 1) (p.TakeDamage 15) (g.TakeDamage 15)
          ⟨hpar, hgar, hpa, hga⟩ (TakeDamage_clears_flag p 15) hg1 ?_ hn ?_ ?_ ?_ ?_
        · cases hgb : g.isBlocking <;>
            simp only [hgb, if_true, if_false, Bool.false_eq_true] at hgh <;> omega
        · rw [hg1b]
          cases hgb : g.isBlocking <;>
            simp only [hgb, if_true, if_false, Bool.false_eq_true] at hE hgh ⊢ <;>
            push_cast at hE ⊢ <;> omega
        · rw [hg1b, hp1h]
          cases hgb : g.isBlocking <;>
            simp only [hgb, if_true, if_false, Bool.false_eq_true] at hP hgh ⊢ <;> omega
        · cases hgb : g.isBlocking <;>
            simp only [hgb, if_true, if_false, Bool.false_eq_true] at hgh <;> omega
        · rw [hp1h]
          omega
      · rw [loopBody_attack_block (draws turn) p g _ hpa hga hdead hd hpal]
        have hsb : ((g.TakeDamage 15).SetBlocking true).isBlocking = true := rfl
        have hsh : ((g.TakeDamage 15).SetBlocking true).health = (g.TakeDamage 15).health :=
          rfl
        refine ih (turn + 1) p ((g.TakeDamage 15).SetBlocking true)
          ⟨hpar, hgar, hpa, hga⟩ hpb (by rw [hsh]; exact hg1) ?_ hn ?_ ?_ ?_ hp100
        · rw [hsh]
          cases hgb : g.isBlocking <;>
            simp only [hgb, if_true, if_false, Bool.false_eq_true] at hgh <;> omega
        · rw [hsb, hsh]
          cases hgb : g.isBlocking <;>
            simp only [hgb, if_true, if_false, Bool.false_eq_true] at hE hgh ⊢ <;>
            push_cast at hE ⊢ <;> omega
        · rw [hsb, hsh]
          cases hgb : g.isBlocking <;>
            simp only [hgb, if_true, if_false, Bool.false_eq_true] at hP hgh ⊢ <;> omega
        · rw [hsh]
          cases hgb : g.isBlocking <;>
            simp only [hgb, if_true, if_false, Bool.false_eq_true] at hgh <;> omega
    · rw [Bool.not_eq_true] at hdead
      rw [loopBody_attack_kills (draws turn) p g _ hpa hdead]
      refine ⟨p, g.TakeDamage 15, ?_, hp10⟩
      simp only [battleResult, hpal, Bool.not_true, Bool.false_eq_true, if_false]

/-- C18: when the constructed player chooses `Attack` (menu choice 1) on every
turn against the constructed goblin, then for every sequence of draws
`StepBattle` returns true within 19 iterations of its loop (one player action
each), and the player has at least 10 health at the return. -/
theorem always_attack_wins (pn gn : String) (draws : Nat → Nat) :
    ∃ p2 g2, StepBattle (fun _ => 1) draws 19 (Player pn) (Goblin gn)
        = BattleRun.returned true p2 g2
      ∧ 10 ≤ p2.health := by
  have hr := battleReady_constructed pn gn
  exact battleLoop_always_attack draws 19 0 (Player pn) (Goblin gn) hr rfl
    (by simp [Goblin, Entity.AddAction, Entity.mk5])
    (by simp [Goblin, Entity.AddAction, Entity.mk5])
    (by decide)
    (by simp [Goblin, Entity.AddAction, Entity.mk5])
    (by simp [Player, Goblin, Entity.AddAction, Entity.mk5])
    (by simp [Goblin, Entity.AddAction, Entity.mk5])
    (by simp [Player, Entity.AddAction, Entity.mk5])

/-! ## The grid -/

theorem GameMap_new_eq : GameMap.new = some initialMap := by
  decide

theorem mapInvariant_initialMap : mapInvariant initialMap := by
  decide

/-- Reading after a write that succeeded. -/
theorem gridRead_gridWrite (grid grid2 : List (List Int)) (y x : Nat) (v : Int)
    (h : gridWrite grid y x v = some grid2) (y2 x2 : Nat) :
    gridRead grid2 y2 x2
      = if y2 = y ∧ x2 = x then some v else gridRead grid y2 x2 := by
  unfold gridWrite at h
  split at h
  · rename_i row hrow
    split at h
    · rename_i hx
      simp only [Option.some.injEq] at h
      subst h
      have hy : y < grid.length := by
        rcases List.getElem?_eq_some.mp hrow with ⟨hy, _⟩
        exact hy
      unfold gridRead
      rw [List.getElem?_set]
      by_cases hyy : y = y2
      · subst hyy
        simp only [hy, if_true, true_and, hrow]
        rw [List.getElem?_set]
        by_cases hxx : x = x2
        · subst hxx
          simp only [hx, if_true]
        · have hxx2 : ¬ x2 = x := fun e => hxx e.symm
          simp only [hxx, hxx2, if_false]
      · have hyy2 : ¬ y2 = y := fun e => hyy e.symm
        simp only [hyy, hyy2, if_false, false_and]
    · exact absurd h (by simp)
  · exact absurd h (by simp)

/-- A cell that can be read can be written. -/
theorem gridWrite_isSome (grid : List (List Int)) (y x : Nat) (v : Int)
    (h : gridRead grid y x ≠ none) : ∃ grid2, gridWrite grid y x v = some grid2 := by
  unfold gridRead at h
  unfold gridWrite
  split at h
  · rename_i row hrow
    have hx : x < row.length := by
      by_contra hcon
      exact h (List.getElem?_eq_none (by omega))
    simp only [hrow, hx, if_true]
    exact ⟨_, rfl⟩
  · exact absurd rfl h

/-- With the player strictly inside the border, the target of a command is a
neighbouring cell: the `size_t` coordinates do not wrap. -/
theorem moveTarget_adjacent (m : GameMap) (cmd : Char) (nx ny : Nat)
    (hx : 1 ≤ m.px ∧ m.px ≤ 13) (hy : 1 ≤ m.py ∧ m.py ≤ 13)
    (h : moveTarget m cmd = some (nx, ny)) :
    (nx = m.px ∧ (ny + 1 = m.py ∨ ny = m.py + 1))
      ∨ (ny = m.py ∧ (nx + 1 = m.px ∨ nx = m.px + 1)) := by
  unfold moveTarget at h
  simp only [sizeDec, sizeInc, sizeModulus] at h
  split_ifs at h <;> simp only [Option.some.injEq, Prod.mk.injEq] at h <;>
    obtain ⟨h1, h2⟩ := h <;> omega

/-- The last lines of `MovePlayer` when the target is a readable cell of the
grid that is not a wall: both writes are in bounds and the invariant holds
again, with the player on the target. -/
theorem finishMove_preserves (m : GameMap) (nx ny : Nat) (tile : Int) (p g : Entity)
    (hinv : mapInvariant m) (hnx : nx < 15) (hny : ny < 15)
    (hread : gridRead m.grid ny nx = some tile) (ht : tile ≠ 9) :
    ∃ m2 p2, finishMove m nx ny tile p g = MoveRun.returned true m2 p2 g
      ∧ mapInvariant m2 ∧ m2.px = nx ∧ m2.py = ny := by
  obtain ⟨hb, hbord, ⟨hx1, hx2⟩, ⟨hy1, hy2⟩⟩ := hinv
  have hne : ∀ t : Int, gridRead m.grid ny nx = some t → t = tile := by
    intro t h
    rw [hread] at h
    exact (Option.some.inj h).symm
  have hny0 : ny ≠ 0 := by
    intro e
    subst e
    exact ht (hne 9 (hbord nx hnx).1).symm
  have hny14 : ny ≠ 14 := by
    intro e
    subst e
    exact ht (hne 9 (hbord nx hnx).2.1).symm
  have hnx0 : nx ≠ 0 := by
    intro e
    subst e
    exact ht (hne 9 (hbord ny hny).2.2.1).symm
  have hnx14 : nx ≠ 14 := by
    intro e
    subst e
    exact ht (hne 9 (hbord ny hny).2.2.2).symm
  obtain ⟨grid1, w1⟩ := gridWrite_isSome m.grid m.py m.px 0 (hb m.py (by omega) m.px (by omega))
  have r1 := gridRead_gridWrite m.grid grid1 m.py m.px 0 w1
  have hb1 : ∀ y : Nat, y < 15 → ∀ x : Nat, x < 15 → gridRead grid1 y x ≠ none := by
    intro y hy x hx
    rw [r1]
    split
    · simp
    · exact hb y hy x hx
  obtain ⟨grid2, w2⟩ := gridWrite_isSome grid1 ny nx 1 (hb1 ny hny nx hnx)
  have r2 := gridRead_gridWrite grid1 grid2 ny nx 1 w2
  have hold : ∀ y x : Nat, ¬ (y = ny ∧ x = nx) → ¬ (y = m.py ∧ x = m.px) →
      gridRead grid2 y x = gridRead m.grid y x := by
    intro y x h1 h2
    rw [r2, if_neg h1, r1, if_neg h2]
  refine ⟨{ m with grid := grid2, px := nx, py := ny },
    (if tile = 4 then (if tile = 3 then p.Heal 20 else p).RestoreMana 20
      else (if tile = 3 then p.Heal 20 else p)), ?_, ?_, rfl, rfl⟩
  · simp only [finishMove, w1, w2]
  · have hpx : 1 ≤ nx ∧ nx ≤ 13 := ⟨by omega, by omega⟩
    have hpy : 1 ≤ ny ∧ ny ≤ 13 := ⟨by omega, by omega⟩
    refine ⟨?_, ?_, hpx, hpy⟩
    · intro y hy x hx
      show gridRead grid2 y x ≠ none
      rw [r2]
      split
      · simp
      · exact hb1 y hy x hx
    · intro i hi
      show gridRead grid2 0 i = some 9 ∧ gridRead grid2 14 i = some 9
        ∧ gridRead grid2 i 0 = some 9 ∧ gridRead grid2 i 14 = some 9
      rw [hold 0 i (by omega) (by omega), hold 14 i (by omega) (by omega),
        hold i 0 (by omega) (by omega), hold i 14 (by omega) (by omega)]
      exact hbord i hi

theorem MoveRun_returned_inv (r : MoveRun) (b0 : Bool) (m0 : GameMap) (p0 g0 : Entity)
    (h : r = MoveRun.returned b0 m0 p0 g0) (hinv : mapInvariant m0) :
    r ≠ MoveRun.outOfBounds
      ∧ ∀ b m2 p2 g2, r = MoveRun.returned b m2 p2 g2 → mapInvariant m2 := by
  subst h
  refine ⟨by simp, ?_⟩
  intro b m2 p2 g2 h
  simp only [MoveRun.returned.injEq] at h
  rw [← h.2.1]
  exact hinv

/-- One call of `MovePlayer` on a map that satisfies the invariant indexes the
grid within its bounds and, if it returns, leaves the invariant in place. -/
theorem MovePlayer_preserves (choices : Nat → Int) (draws : Nat → Nat) (fuel : Nat)
    (m : GameMap) (cmd : Char) (p g : Entity) (hinv : mapInvariant m) :
    MovePlayer choices draws fuel m cmd p g ≠ MoveRun.outOfBounds
      ∧ ∀ b m2 p2 g2, MovePlayer choices draws fuel m cmd p g = MoveRun.returned b m2 p2 g2 →
          mapInvariant m2 := by
  cases hmt : moveTarget m cmd with
  | none =>
    exact MoveRun_returned_inv _ true m p g (by simp only [MovePlayer, hmt]) hinv
  | some t =>
    obtain ⟨nx, ny⟩ := t
    have hadj := moveTarget_adjacent m cmd nx ny hinv.2.2.1 hinv.2.2.2 hmt
    have hnx : nx < 15 := by
      have := hinv.2.2.1
      have := hinv.2.2.2
      omega
    have hny : ny < 15 := by
      have := hinv.2.2.1
      have := hinv.2.2.2
      omega
    cases hread : gridRead m.grid ny nx with
    | none => exact absurd hread (hinv.1 ny hny nx hnx)
    | some tile =>
      by_cases h9 : tile = 9
      · exact MoveRun_returned_inv _ true m p g
          (by simp only [MovePlayer, hmt, hread, h9, if_true]) hinv
      · by_cases h2 : tile = 2
        · have h92 : ¬ ((2 : Int) = 9) := by decide
          cases hbat : StepBattle choices draws fuel p g with
          | nullAction =>
            have e : MovePlayer choices draws fuel m cmd p g = MoveRun.nullAction := by
              simp only [MovePlayer, hmt, hread, h2, h92, if_true, if_false, hbat]
            rw [e]
            exact ⟨by simp, by simp⟩
          | noFuel =>
            have e : MovePlayer choices draws fuel m cmd p g = MoveRun.noFuel := by
              simp only [MovePlayer, hmt, hread, h2, h92, if_true, if_false, hbat]
            rw [e]
            exact ⟨by simp, by simp⟩
          | returned w p1 g1 =>
            cases w with
            | false =>
              exact MoveRun_returned_inv _ false m p1 g1
                (by simp only [MovePlayer, hmt, hread, h2, h92, if_true, if_false, hbat]) hinv
            | true =>
              obtain ⟨m3, p3, hf, hinv3, _, _⟩ :=
                finishMove_preserves m nx ny 2 p1 g1 hinv hnx hny (h2 ▸ hread) (by decide)
              exact MoveRun_returned_inv _ true m3 p3 g1
                (by simp only [MovePlayer, hmt, hread, h2, h92, if_true, if_false, hbat, hf])
                hinv3
        · obtain ⟨m3, p3, hf, hinv3, _, _⟩ :=
            finishMove_preserves m nx ny tile p g hinv hnx hny hread h9
          exact MoveRun_returned_inv _ true m3 p3 g
            (by simp only [MovePlayer, hmt, hread, h9, h2, if_false, hf]) hinv3

theorem runMoves_preserves (moves : List MoveInput) :
    ∀ (m : GameMap) (p g : Entity), mapInvariant m →
      runMoves moves m p g ≠ MoveRun.outOfBounds
        ∧ ∀ b m2 p2 g2, runMoves moves m p g = MoveRun.returned b m2 p2 g2 →
            mapInvariant m2 := by
  induction moves with
  | nil =>
    intro m p g hinv
    refine ⟨by simp [runMoves], ?_⟩
    intro b m2 p2 g2 h
    simp only [runMoves, MoveRun.returned.injEq] at h
    rw [← h.2.1]
    exact hinv
  | cons i rest ih =>
    intro m p g hinv
    obtain ⟨hno, hret⟩ := MovePlayer_preserves i.choices i.draws i.fuel m i.cmd p g hinv
    cases hmove : MovePlayer i.choices i.draws i.fuel m i.cmd p g with
    | outOfBounds => exact absurd hmove hno
    | nullAction => simp [runMoves, hmove]
    | noFuel => simp [runMoves, hmove]
    | returned ok m1 p1 g1 =>
      have hinv1 := hret ok m1 p1 g1 hmove
      cases ok with
      | true =>
        simp only [runMoves, hmove]
        exact ih m1 p1 g1 hinv1
      | false =>
        simp only [runMoves, hmove]
        refine ⟨by simp, ?_⟩
        intro b m2 p2 g2 h
        simp only [MoveRun.returned.injEq] at h
        rw [← h.2.1]
        exact hinv1

/-! ## C19: a battle against a goblin that is already defeated -/

theorem battleLoop_not_entered (choices : Nat → Int) (draws : Nat → Nat) (fuel turn : Nat)
    (p g : Entity) (h : (p.IsAlive && g.IsAlive) = false) :
    battleLoop choices draws fuel turn p g = battleResult p g := by
  cases fuel <;> simp only [battleLoop, h, Bool.false_eq_true, if_false]

/-- C19: `StepBattle` entered with a live player and a goblin that is not
alive returns true at once with both entities unchanged, for every input and
with no iteration of the loop (fuel 0): no choice is read and no action is
performed.  In `MovePlayer`, stepping on a goblin tile (value 2) with such a
goblin therefore goes straight on to the end of the move. -/
theorem StepBattle_defeated_goblin (choices : Nat → Int) (draws : Nat → Nat) (fuel : Nat)
    (p g : Entity) (hp : p.IsAlive = true) (hg : g.IsAlive = false) :
    StepBattle choices draws fuel p g = BattleRun.returned true p g
      ∧ StepBattle choices draws 0 p g = BattleRun.returned true p g
      ∧ ∀ (m : GameMap) (cmd : Char) (nx ny : Nat), moveTarget m cmd = some (nx, ny) →
          gridRead m.grid ny nx = some 2 →
          MovePlayer choices draws fuel m cmd p g = finishMove m nx ny 2 p g := by
  have hdead : (p.IsAlive && g.IsAlive) = false := by simp [hg]
  have hres : battleResult p g = BattleRun.returned true p g := by
    simp only [battleResult, hp, Bool.not_true, Bool.false_eq_true, if_false]
  have h1 : ∀ f, StepBattle choices draws f p g = BattleRun.returned true p g := by
    intro f
    unfold StepBattle
    rw [battleLoop_not_entered choices draws f 0 p g hdead, hres]
  refine ⟨h1 fuel, h1 0, ?_⟩
  intro m cmd nx ny hmt hread
  have h92 : ¬ ((2 : Int) = 9) := by decide
  simp only [MovePlayer, hmt, hread, h92, if_true, if_false, h1 fuel]

/-- C19 (witness): the constructed map has two goblin tiles, `(10, 10)` and
`(11, 13)`, for the one goblin.  With the goblin defeated and the hero at 10
health just above the second tile, the battle returns true without an
iteration and the step down moves the hero onto the tile, both entities
unchanged. -/
theorem StepBattle_defeated_goblin_witness :
    (gridRead initialMap.grid 10 10 = some 2 ∧ gridRead initialMap.grid 13 11 = some 2)
      ∧ StepBattle (fun _ => 1) (fun _ => 0) 0 heroAtTen goblinDefeated
          = BattleRun.returned true heroAtTen goblinDefeated
      ∧ MovePlayer (fun _ => 1) (fun _ => 0) 0 mapAboveSecondGoblin 's' heroAtTen
            goblinDefeated
          = MoveRun.returned true mapOnSecondGoblin heroAtTen goblinDefeated :=
  ⟨by decide,
   (StepBattle_defeated_goblin (fun _ => 1) (fun _ => 0) 0 heroAtTen goblinDefeated
      (by decide) (by decide)).1,
   ((StepBattle_defeated_goblin (fun _ => 1) (fun _ => 0) 0 heroAtTen goblinDefeated
      (by decide) (by decide)).2.2 mapAboveSecondGoblin 's' 11 13 (by decide)
      (by decide)).trans (by decide)⟩

/-! ## C20: the position of the player on the map -/

/-- C20: the constructor builds `initialMap`, and for every finite list of
commands (with any battle inputs) the loop of `main` started on it with the
constructed player and goblin never indexes the grid out of bounds; whenever
it returns, the border cells still hold 9, the player position satisfies
`1 ≤ px ≤ 13` and `1 ≤ py ≤ 13`, and the target `(nx, ny)` of any further
command is a neighbouring cell inside the 15 by 15 grid (no `size_t` wrap). -/
theorem map_position_invariant (pn gn : String) (moves : List MoveInput) :
    GameMap.new = some initialMap
      ∧ runMoves moves initialMap (Player pn) (Goblin gn) ≠ MoveRun.outOfBounds
      ∧ ∀ b m p g,
          runMoves moves initialMap (Player pn) (Goblin gn) = MoveRun.returned b m p g →
          (∀ i : Nat, i < 15 →
              gridRead m.grid 0 i = some 9 ∧ gridRead m.grid 14 i = some 9
                ∧ gridRead m.grid i 0 = some 9 ∧ gridRead m.grid i 14 = some 9)
            ∧ (1 ≤ m.px ∧ m.px ≤ 13) ∧ (1 ≤ m.py ∧ m.py ≤ 13)
            ∧ ∀ (cmd : Char) (nx ny : Nat), moveTarget m cmd = some (nx, ny) →
                nx < 15 ∧ ny < 15
                  ∧ ((nx = m.px ∧ (ny + 1 = m.py ∨ ny = m.py + 1))
                    ∨ (ny = m.py ∧ (nx + 1 = m.px ∨ nx = m.px + 1)))
                  ∧ gridRead m.grid ny nx ≠ none := by
  obtain ⟨hno, hret⟩ := runMoves_preserves moves initialMap (Player pn) (Goblin gn)
    mapInvariant_initialMap
  refine ⟨GameMap_new_eq, hno, ?_⟩
  intro b m p g h
  obtain ⟨hb, hbord, hx, hy⟩ := hret b m p g h
  refine ⟨hbord, hx, hy, ?_⟩
  intro cmd nx ny hmt
  have hadj := moveTarget_adjacent m cmd nx ny hx hy hmt
  have hnx : nx < 15 := by omega
  have hny : ny < 15 := by omega
  exact ⟨hnx, hny, hadj, hb ny hny nx hnx⟩

/-- C20 (witness): after a step up and a step left from the start the loop of
`main` has returned true with the player on `(4, 4)`. -/
theorem map_position_invariant_witness :
    ∃ m p g, runMoves twoSteps initialMap hero goblin = MoveRun.returned true m p g
      ∧ m.px = 4 ∧ m.py = 4
      ∧ (1 ≤ m.px ∧ m.px ≤ 13) ∧ (1 ≤ m.py ∧ m.py ≤ 13) := by
  have h : runMoves twoSteps initialMap hero goblin
      = MoveRun.returned true
          { initialMap with
            grid := ((initialMap.grid.set 5 ((initialMap.grid.getD 5 []).set 5 0)).set 4
              ((initialMap.grid.getD 4 []).set 4 1)),
            px := 4, py := 4 } hero goblin := by
    decide
  obtain ⟨_, _, hinv⟩ := map_position_invariant "Hero" "Goblin" twoSteps
  have h2 := hinv _ _ _ _ h
  exact ⟨_, _, _, h, rfl, rfl, h2.2.1, h2.2.2.1⟩

end Combat
